import Mathlib

/-!
Verification development for a repository with two Python utilities:

* `mapsexcel.py` — a browser-driven Google-Maps listing scraper built around a
  pagination control loop (`extract_all_results`), a per-listing detail parser
  (`extract_listing_details_from_panel`) and a phone post-processor
  (`clean_phone_number`).
* `zip.py` — a directory-to-archive packaging script built around an exclusion
  predicate (`should_exclude_file`) and a filesystem walk
  (`create_directory_zip`, `main`).

The development shallowly embeds the control flow of both scripts.  External
effects (the browser session, the filesystem, the archive library, the clock
and the interactive prompt) are modelled as oracles supplied through explicit
environment structures; the embedded definitions themselves follow the Python
sources statement by statement.
-/

/-! ## Character-list string helpers

Python string primitives (`in`, `startswith`, `endswith`, `lower`,
`os.path.basename`, `split(c, 1)[1]`) are embedded as executable functions on
`List Char` / `String`. -/

/-- Decides whether `pat` occurs at the start of `l` (embeds list/str prefix test). -/
def clStartsWith : List Char → List Char → Bool
  | [], _ => true
  | _ :: _, [] => false
  | a :: as, b :: bs => a == b && clStartsWith as bs

/-- Decides whether `pat` occurs anywhere inside `l` (embeds the Python
substring test `pat in l`). -/
def clOccursIn (pat : List Char) : List Char → Bool
  | [] => pat.isEmpty
  | c :: cs => clStartsWith pat (c :: cs) || clOccursIn pat cs

/-- Embeds the Python substring test `pat in s`. -/
def strOccursIn (pat s : String) : Bool :=
  clOccursIn pat.data s.data

/-- Embeds Python `s.startswith(p)`. -/
def strStartsWith (p s : String) : Bool :=
  clStartsWith p.data s.data

/-- Embeds Python `s.endswith(suf)`: the reversed suffix must start the
reversed string. -/
def strEndsWith (suf s : String) : Bool :=
  clStartsWith suf.data.reverse s.data.reverse

/-- Embeds Python `s.lower()` for the ASCII strings handled by the scripts. -/
def strLower (s : String) : String :=
  ⟨s.data.map Char.toLower⟩

/-- Embeds `os.path.basename` on POSIX paths: the part after the last slash. -/
def basenameCL (l : List Char) : List Char :=
  ((l.reverse).takeWhile (fun c => c ≠ '/')).reverse

/-- Embeds `os.path.basename` on `String`. -/
def basenameStr (s : String) : String :=
  ⟨basenameCL s.data⟩

/-- Embeds `os.path.join(a, b)` for the non-empty, slash-free-tail roots
produced by `os.walk`. -/
def joinPath (a b : String) : String :=
  a ++ "/" ++ b

/-- Embeds Python `s.split(':', 1)[1]` under the guard that `':'` occurs in
`s`: everything after the first colon. -/
def afterFirstColon (s : String) : String :=
  ⟨(s.data.dropWhile (fun c => c ≠ ':')).drop 1⟩

/-- Embeds Python `s.strip()`: drop whitespace from both ends (structural, so
concrete runs reduce inside the kernel). -/
def strTrim (s : String) : String :=
  ⟨(((s.data.dropWhile Char.isWhitespace).reverse.dropWhile Char.isWhitespace).reverse)⟩

/-- Replaces the leftmost, non-overlapping occurrences of `pat` by `rep`,
fuelled by the input length so the recursion is structural.  Embeds Python
`s.replace(pat, rep)` for the non-empty patterns the scripts use. -/
def clReplaceAux (pat rep : List Char) : Nat → List Char → List Char
  | 0, l => l
  | _ + 1, [] => []
  | fuel + 1, c :: cs =>
    if clStartsWith pat (c :: cs) && !pat.isEmpty then
      rep ++ clReplaceAux pat rep fuel ((c :: cs).drop pat.length)
    else c :: clReplaceAux pat rep fuel cs

/-- Embeds Python `s.replace(pat, rep)` on `String`. -/
def strReplace (s pat rep : String) : String :=
  ⟨clReplaceAux pat.data rep.data s.data.length s.data⟩

/-! ## `zip.py`: exclusion policy -/

/-- The fixed temp-suffix set of `should_exclude_file` (zip.py line 32). -/
def tempExtensions : List String :=
  [".tmp", ".temp", ".swp", ".bak", "~"]

/-- Embeds `should_exclude_file` (zip.py lines 19-36): the basename is tested
for a case-insensitive `.zip` suffix, a leading dot, and the temp suffixes. -/
def should_exclude_file (filepath : String) : Bool :=
  let filename := basenameStr filepath
  if strEndsWith ".zip" (strLower filename) then true
  else if strStartsWith "." filename then true
  else if tempExtensions.any (fun ext => strEndsWith ext filename) then true
  else false

/-- Embeds `get_zip_filename` (zip.py lines 14-17); the timestamp string is an
input because the clock is external. -/
def get_zip_filename (ts : String) : String :=
  "directory_backup_" ++ ts ++ ".zip"

/-! ## `zip.py`: archive builder

`os.walk('.')` output is modelled as a list of frames `(root, dirs, files)`;
archive I/O failures are modelled by a `ZipEnv` oracle.  The builder code in
`create_directory_zip` never mutates the `dirs` lists, so the walk of a
directory tree (`osWalk` below) descends into every subdirectory. -/

/-- One `os.walk` triple `(root, dirs, files)`. -/
structure Frame where
  root : String
  dirs : List String
  files : List String
deriving DecidableEq

/-- Failure oracle for archive I/O: `createFail` models `zipfile.ZipFile`
raising at open; the other two model `zipf.write` raising for a given path. -/
structure ZipEnv where
  createFail : Bool
  dirWriteFail : String → Bool
  fileWriteFail : String → Bool

/-- Mutable totals of `create_directory_zip`, plus the archive entries written
so far (directory entries and file entries kept separately). -/
structure ZipAcc where
  dirEntries : List String
  fileEntries : List String
  filesAdded : Nat
  foldersAdded : Nat
  filesSkipped : Nat
deriving DecidableEq

/-- Starting totals. -/
def initZipAcc : ZipAcc := ⟨[], [], 0, 0, 0⟩

/-- Embeds the directory pass of one walk frame (zip.py lines 66-79).  A
`zipf.write(dir_path)` failure is unprotected there, so it escapes to the
outer handler: this is the `.error` case, carrying the totals so far. -/
def addDirs (env : ZipEnv) (excludeHidden : Bool) (root : String) :
    List String → ZipAcc → Except ZipAcc ZipAcc
  | [], acc => .ok acc
  | d :: ds, acc =>
    if excludeHidden && strStartsWith "." d then
      addDirs env excludeHidden root ds acc
    else
      let p := joinPath root d
      if env.dirWriteFail p then .error acc
      else
        addDirs env excludeHidden root ds
          { acc with dirEntries := acc.dirEntries ++ [p],
                     foldersAdded := acc.foldersAdded + 1 }

/-- Embeds the file pass of one walk frame (zip.py lines 82-110).  A
`zipf.write(file_path)` failure is caught locally (warning) and the walk
continues, so this pass never escapes. -/
def addFiles (env : ZipEnv) (excludeHidden : Bool) (root : String) :
    List String → ZipAcc → ZipAcc
  | [], acc => acc
  | f :: fs, acc =>
    let p := joinPath root f
    if should_exclude_file p then
      addFiles env excludeHidden root fs { acc with filesSkipped := acc.filesSkipped + 1 }
    else if excludeHidden && strStartsWith "." f then
      addFiles env excludeHidden root fs { acc with filesSkipped := acc.filesSkipped + 1 }
    else if env.fileWriteFail p then
      addFiles env excludeHidden root fs acc
    else
      addFiles env excludeHidden root fs
        { acc with fileEntries := acc.fileEntries ++ [p], filesAdded := acc.filesAdded + 1 }

/-- Embeds the walk loop of `create_directory_zip` (zip.py lines 63-110):
directories first, then files, frame by frame. -/
def processFrames (env : ZipEnv) (excludeHidden : Bool) :
    List Frame → ZipAcc → Except ZipAcc ZipAcc
  | [], acc => .ok acc
  | fr :: frs, acc =>
    match addDirs env excludeHidden fr.root fr.dirs acc with
    | .error a => .error a
    | .ok a => processFrames env excludeHidden frs (addFiles env excludeHidden fr.root fr.files a)

/-- Result of `create_directory_zip`: the Python return value (`success`), the
effective output filename and the archive contents and totals. -/
structure ZipOutcome where
  success : Bool
  outputName : String
  dirEntries : List String
  fileEntries : List String
  filesAdded : Nat
  foldersAdded : Nat
  filesSkipped : Nat
deriving DecidableEq

/-- Embeds `create_directory_zip` (zip.py lines 38-127): default filename,
forced `.zip` extension, archive-open failure returning `False`, then the
walk; any escaped exception is caught at lines 112-114 and also returns
`False`. -/
def create_directory_zip (outputFilename : Option String) (ts : String)
    (excludeHidden : Bool) (frames : List Frame) (env : ZipEnv) : ZipOutcome :=
  let name0 := outputFilename.getD (get_zip_filename ts)
  let name := if strEndsWith ".zip" name0 then name0 else name0 ++ ".zip"
  if env.createFail then
    ⟨false, name, [], [], 0, 0, 0⟩
  else
    match processFrames env excludeHidden frames initZipAcc with
    | .error a => ⟨false, name, a.dirEntries, a.fileEntries, a.filesAdded, a.foldersAdded, a.filesSkipped⟩
    | .ok a => ⟨true, name, a.dirEntries, a.fileEntries, a.filesAdded, a.foldersAdded, a.filesSkipped⟩

/-- Embeds `main` (zip.py lines 129-186) after argument parsing: the
confirmation prompt (shown only without `--verbose`), then the build and the
exit code (`0` on success or cancellation, `1` on failure). -/
def mainRun (outputArg : Option String) (includeHidden verbose : Bool)
    (response ts : String) (frames : List Frame) (env : ZipEnv) :
    Nat × Option ZipOutcome :=
  let resp := strTrim (strLower response)
  if !verbose && !(resp == "y" || resp == "yes") then (0, none)
  else
    let out := create_directory_zip outputArg ts (!includeHidden) frames env
    if out.success then (0, some out) else (1, some out)

/-! ### Filesystem trees and `os.walk`

`os.walk('.')` is Python library behaviour: it yields `(root, dirs, files)`
top-down and descends into a subdirectory unless the caller mutates `dirs`
in place, which `create_directory_zip` never does.  `osWalk` models exactly
that documented semantics for an explicit directory tree. -/

/-- A filesystem tree: files and directories with ordered children. -/
inductive FSTree where
  | file (name : String)
  | dir (name : String) (children : List FSTree)

/-- The subdirectory names of a child list, in scan order. -/
def dirNamesOf (cs : List FSTree) : List String :=
  cs.filterMap fun t => match t with | .dir n _ => some n | .file _ => none

/-- The file names of a child list, in scan order. -/
def fileNamesOf (cs : List FSTree) : List String :=
  cs.filterMap fun t => match t with | .file n => some n | .dir _ _ => none

/-- The frames produced below a directory whose children are `cs`: one frame
per subdirectory, recursively, in top-down order.  No pruning happens because
the builder never mutates the `dirs` list. -/
def walkChildren (path : String) : List FSTree → List Frame
  | [] => []
  | .file _ :: ts => walkChildren path ts
  | .dir n cs :: ts =>
    (⟨joinPath path n, dirNamesOf cs, fileNamesOf cs⟩ :: walkChildren (joinPath path n) cs)
      ++ walkChildren path ts

/-- Embeds `os.walk('.')` on a tree rooted at the working directory. -/
def osWalk : FSTree → List Frame
  | .file _ => []
  | .dir _ cs => ⟨".", dirNamesOf cs, fileNamesOf cs⟩ :: walkChildren "." cs

/-! ## `mapsexcel.py`: phone cleaning -/

/-- Embeds `clean_phone_number` (mapsexcel.py lines 523-535).  The input is the
`astype(str)` rendering of the phone column, so `pd.isna` is `False` and the
guards are the string comparisons with `''` and `'nan'`.  The substitution
`re.sub(r'[^\d+]', '', phone)` keeps exactly the digits and every plus sign. -/
def clean_phone_number (phone : String) : String :=
  if phone == "" || phone == "nan" then ""
  else
    let cleaned : String := ⟨phone.data.filter (fun c => c.isDigit || c == '+')⟩
    if cleaned.length ≥ 10 then cleaned else phone

/-- The phone-cleaning map exactly as the claim words it: strip all characters
except digits and a leading plus sign; keep the stripped form only when its
length is at least 10, otherwise return the raw string unchanged. -/
def cleanPhoneClaimSpec (phone : String) : String :=
  let kept : String :=
    (if strStartsWith "+" phone then "+" else "") ++ ⟨phone.data.filter Char.isDigit⟩
  if 10 ≤ kept.length then kept else phone

/-- The characters the substitution keeps, collected by a fold (amended
specification wording: digits and plus signs anywhere). -/
def keepDigitsPlus (s : String) : String :=
  ⟨s.data.foldr (fun c acc => if c.isDigit ∨ c = '+' then c :: acc else acc) []⟩

/-- The phone-cleaning map as amended: `""` for the empty and `"nan"` inputs;
otherwise keep digits and all plus signs, returning the kept form when it has
length at least 10 and the raw input otherwise. -/
def cleanPhoneAmendedSpec (phone : String) : String :=
  if phone = "" ∨ phone = "nan" then ""
  else if 10 ≤ (keepDigitsPlus phone).length then keepDigitsPlus phone
  else phone

/-! ## `mapsexcel.py`: the pagination controller

`extract_all_results` (mapsexcel.py lines 356-462) drives the browser through
three oracles: `get_total_results_count`, the per-listing visit
(`click_listing_by_index` followed by `extract_listing_details_from_panel`)
and `scroll_results_panel`, plus the asynchronous `stop_extraction` flag.
Each oracle is a stream indexed by its own call counter.  The concrete callees
swallow their exceptions internally, so the `raised` outcomes below give
semantics to the defensive `except` blocks of the controller itself. -/

/-- One scraped listing record — the `details` dict of
`extract_listing_details_from_panel` (mapsexcel.py lines 151-162).  `none` is
the Python `None`; a present field holds the extracted string. -/
structure Details where
  name : Option String
  phone : Option String
  email : Option String
  website : Option String
  address : Option String
  rating : Option String
  reviews_count : Option String
  category : Option String
  hours : Option String
  price_level : Option String
deriving DecidableEq

/-- The all-`None` record the parser starts from. -/
def initDetails : Details :=
  ⟨none, none, none, none, none, none, none, none, none, none⟩

/-- Python truthiness of an optional string field: `None` and `''` are falsy. -/
def truthyStr : Option String → Bool
  | none => false
  | some s => s ≠ ""

/-- Observable outcome of one per-listing visit attempt inside the protected
block at mapsexcel.py lines 390-405: the click returns `False`; or the click
succeeds and the panel parse returns a record; or an exception with a given
message escapes to the handler at lines 406-412. -/
inductive VisitOutcome where
  | clickFail
  | parsed (d : Details)
  | raised (msg : String)
deriving DecidableEq

/-- Observable outcome of one `scroll_results_panel` call: the loaded count
grew, it did not grow, or an exception with a given message escaped. -/
inductive ScrollOutcome where
  | grew
  | noGrow
  | raised (msg : String)
deriving DecidableEq

/-- The feed behaviour: result counts per loop entry, visit outcomes per visit
attempt, scroll outcomes per scroll attempt, and the stop flag per check. -/
structure FeedEnv where
  counts : Nat → Nat
  visit : Nat → VisitOutcome
  scroll : Nat → ScrollOutcome
  stop : Nat → Bool

/-- Embeds the fatal-failure classification used at mapsexcel.py lines 410,
425, 444 and 459: the lowered message mentions `connection` or `session`. -/
def fatalMsg (msg : String) : Bool :=
  strOccursIn "connection" (strLower msg) || strOccursIn "session" (strLower msg)

/-- The controller state: the accumulated results and `processed_indices`, the
two failure counters, and one call counter per oracle stream. -/
structure LoopState where
  results : List Details
  processedIndices : List Nat
  consecutiveFailures : Nat
  noNewResultsCount : Nat
  visitCalls : Nat
  scrollCalls : Nat
  stopChecks : Nat
  countCalls : Nat
deriving DecidableEq

/-- The state at loop entry (mapsexcel.py lines 358-360 with `self.results`
empty). -/
def initLoopState : LoopState := ⟨[], [], 0, 0, 0, 0, 0, 0⟩

/-- Signal from one listing iteration: continue the scan, or break out of the
`for` loop (Python `break`). -/
inductive InnerSignal where
  | next
  | brk
deriving DecidableEq

/-- Embeds the failure-streak scroll at mapsexcel.py lines 414-427: when
`consecutive_failures > 3`, attempt a scroll; a scroll that returns resets the
failure counter (and adjusts the no-growth counter), a fatal raise breaks the
scan, a non-fatal raise leaves the counters alone. -/
def maybeScroll (env : FeedEnv) (s : LoopState) : LoopState × InnerSignal :=
  if s.consecutiveFailures > 3 then
    match env.scroll s.scrollCalls with
    | .grew =>
      ({ s with scrollCalls := s.scrollCalls + 1, noNewResultsCount := 0,
                consecutiveFailures := 0 }, .next)
    | .noGrow =>
      ({ s with scrollCalls := s.scrollCalls + 1,
                noNewResultsCount := s.noNewResultsCount + 1,
                consecutiveFailures := 0 }, .next)
    | .raised msg =>
      let s := { s with scrollCalls := s.scrollCalls + 1 }
      if fatalMsg msg then (s, .brk) else (s, .next)
  else (s, .next)

/-- Embeds one iteration of the listing scan (mapsexcel.py lines 379-427):
stop check, `processed_indices` skip, the protected visit, the
append-when-named update, the failure/fatal handling, then `maybeScroll`. -/
def innerStep (env : FeedEnv) (s : LoopState) (i : Nat) : LoopState × InnerSignal :=
  if env.stop s.stopChecks then
    ({ s with stopChecks := s.stopChecks + 1 }, .brk)
  else
    let s := { s with stopChecks := s.stopChecks + 1 }
    if i ∈ s.processedIndices then (s, .next)
    else
      let oc := env.visit s.visitCalls
      let s := { s with visitCalls := s.visitCalls + 1 }
      match oc with
      | .parsed d =>
        if truthyStr d.name then
          maybeScroll env
            { s with results := s.results ++ [d],
                     processedIndices := s.processedIndices ++ [i],
                     consecutiveFailures := 0 }
        else
          maybeScroll env { s with consecutiveFailures := s.consecutiveFailures + 1 }
      | .clickFail =>
        maybeScroll env { s with consecutiveFailures := s.consecutiveFailures + 1 }
      | .raised msg =>
        let s := { s with consecutiveFailures := s.consecutiveFailures + 1 }
        if fatalMsg msg then (s, .brk) else maybeScroll env s

/-- Embeds the `for i in range(total_listings)` scan. -/
def innerLoop (env : FeedEnv) (s : LoopState) : List Nat → LoopState
  | [] => s
  | i :: rest =>
    match innerStep env s i with
    | (s', .next) => innerLoop env s' rest
    | (s', .brk) => s'

/-- Why the `while` loop of `extract_all_results` ended: the stop flag, zero
loaded listings, the no-growth threshold, or a fatal raise of the
end-of-pass scroll (mapsexcel.py lines 370-375, 429-452). -/
inductive ExitCause where
  | stopRequested
  | zeroItems
  | noGrowth
  | fatalConnection
deriving DecidableEq

/-- Embeds one pass of the `while not self.stop_extraction` body
(mapsexcel.py lines 370-455): the stop check, the zero-count exit, the
listing scan, the stop re-check, the end-of-pass scroll and the no-growth
threshold.  `.inl` is a `break` with its cause, `.inr` continues the loop. -/
def outerPass (env : FeedEnv) (s : LoopState) : (LoopState × ExitCause) ⊕ LoopState :=
  if env.stop s.stopChecks then
    .inl ({ s with stopChecks := s.stopChecks + 1 }, .stopRequested)
  else
    let s := { s with stopChecks := s.stopChecks + 1 }
    let total := env.counts s.countCalls
    let s := { s with countCalls := s.countCalls + 1 }
    if total = 0 then .inl (s, .zeroItems)
    else
      let s := innerLoop env s (List.range total)
      if env.stop s.stopChecks then
        .inl ({ s with stopChecks := s.stopChecks + 1 }, .stopRequested)
      else
        let s := { s with stopChecks := s.stopChecks + 1 }
        match env.scroll s.scrollCalls with
        | .grew =>
          let s := { s with scrollCalls := s.scrollCalls + 1, noNewResultsCount := 0 }
          if s.noNewResultsCount > 3 then .inl (s, .noGrowth)
          else .inr s
        | .noGrow =>
          let s := { s with scrollCalls := s.scrollCalls + 1,
                            noNewResultsCount := s.noNewResultsCount + 1 }
          if s.noNewResultsCount > 3 then .inl (s, .noGrowth)
          else .inr s
        | .raised msg =>
          let s := { s with scrollCalls := s.scrollCalls + 1 }
          if fatalMsg msg then .inl (s, .fatalConnection)
          else if s.noNewResultsCount > 3 then .inl (s, .noGrowth)
          else .inr s

/-- Embeds the `while not self.stop_extraction` loop of `extract_all_results`
(mapsexcel.py lines 370-455), fuel-indexed because the Python loop is
unbounded: `none` means the loop is still running after `fuel` passes. -/
def outerLoop (env : FeedEnv) : Nat → LoopState → Option (LoopState × ExitCause)
  | 0, _ => none
  | fuel + 1, s =>
    match outerPass env s with
    | .inl r => some r
    | .inr s' => outerLoop env fuel s'

/-- Embeds `extract_all_results`: whatever ends the loop, the method falls
through to `return self.results` (mapsexcel.py line 462), so the accumulated
list is returned together with the cause. -/
def extract_all_results (env : FeedEnv) (fuel : Nat) : Option (List Details × ExitCause) :=
  (outerLoop env fuel initLoopState).map fun p => (p.1.results, p.2)

/-! ## `mapsexcel.py`: the detail parser

`extract_listing_details_from_panel` (mapsexcel.py lines 149-296) is a
sequence of field-extraction blocks over the open detail panel.  Each DOM
query is an oracle that either yields the queried text or raises
(`Except Unit _`, `.error` being the raise).  The pure regex helpers
`extract_phone_from_text` and the email `findall` are total string functions
taken as parameters (`TextOps`); the two `re.search` number scans are embedded
concretely (`firstDecimalRun`, `firstNumRun`).  The whole body sits in one
outer `try` whose handler logs and falls through to `return details`, so the
parse always returns the record accumulated so far. -/

/-- Attribute data of one info button: `data-item-id`, `aria-label` (both may
be `None`) and the visible text. -/
structure ButtonData where
  itemId : Option String
  ariaLabel : Option String
  text : String
deriving DecidableEq

/-- The DOM oracles of one parse, one per query site.  `.error` models the
Selenium call raising.  `buttonsFind` is the only unprotected query (line
195): its raise escapes to the outer handler.  `telHref` collapses the
protected tel-link block (lines 230-237) to its observable result: `.error`
covers any raise inside the block (including the `.replace` on a `None`
href), `.ok none` is the empty link list. -/
structure PanelEnv where
  nameText : Nat → Except Unit String
  categoryText : Except Unit String
  buttonsFind : Except Unit (List (Except Unit ButtonData))
  telHref : Except Unit (Option String)
  ratingText : Except Unit String
  reviewsText : Except Unit String
  hoursText : Except Unit String
  priceText : Except Unit String
  panelText : Except Unit String

/-- The pure, total regex helpers of the parser that are kept abstract: the
theorems below hold for every such pair, in particular for the source
regexes.  `phoneFromText` abstracts `extract_phone_from_text` (lines
126-147); `firstEmail` abstracts the email `re.findall` head (lines 284-287). -/
structure TextOps where
  phoneFromText : String → Option String
  firstEmail : String → Option String

/-- An instantiation of `TextOps` for runs that provably never consult the
abstract helpers (used only in concrete evaluations). -/
def nullTextOps : TextOps := ⟨fun _ => none, fun _ => none⟩

/-- Embeds `re.search(r'([\d.]+)', s)` (line 245): the leftmost maximal run of
characters from the class, greedily extended. -/
def firstRun (p : Char → Bool) : List Char → Option (List Char)
  | [] => none
  | c :: cs => if p c then some (c :: cs.takeWhile p) else firstRun p cs

/-- First maximal run of digits and dots, as matched at line 245. -/
def firstDecimalRun (s : String) : Option String :=
  (firstRun (fun c => c.isDigit || c == '.') s.data).map fun l => ⟨l⟩

/-- First maximal run of digits and commas, as matched at line 254. -/
def firstNumRun (s : String) : Option String :=
  (firstRun (fun c => c.isDigit || c == ',') s.data).map fun l => ⟨l⟩

/-- Embeds the name-selector loop (lines 169-183): each selector is tried
under its own handler; the first element with non-empty text wins and the
loop breaks; a raise or empty text moves to the next selector. -/
def nameLoop (nt : Nat → Except Unit String) : List Nat → Details → Details
  | [], d => d
  | k :: ks, d =>
    match nt k with
    | .error _ => nameLoop nt ks d
    | .ok t => if t ≠ "" then { d with name := some (strTrim t) } else nameLoop nt ks d

/-- The name block over the four selectors of `name_selectors`. -/
def nameBlock (nt : Nat → Except Unit String) (d : Details) : Details :=
  nameLoop nt [0, 1, 2, 3] d

/-- Embeds the category block (lines 186-192). -/
def categoryBlock (ct : Except Unit String) (d : Details) : Details :=
  match ct with
  | .error _ => d
  | .ok t => if t ≠ "" then { d with category := some (strTrim t) } else d

/-- Embeds the body of the info-button loop (lines 198-227): attribute access
raising skips the button; otherwise the phone/website/address `elif` chain
runs on the lowered `data-item-id` and `aria-label`. -/
def buttonStep (tOps : TextOps) (b : Except Unit ButtonData) (d : Details) : Details :=
  match b with
  | .error _ => d
  | .ok bd =>
    let itemId := bd.itemId.getD ""
    let aria := bd.ariaLabel.getD ""
    let txt := bd.text
    if strOccursIn "phone" (strLower itemId) || strOccursIn "phone" (strLower aria) then
      if aria ≠ "" && aria.contains ':' then
        { d with phone := some (strTrim (afterFirstColon aria)) }
      else if txt ≠ "" then
        match tOps.phoneFromText txt with
        | some p => { d with phone := some p }
        | none => d
      else d
    else if strOccursIn "website" (strLower itemId) || strOccursIn "website" (strLower aria) then
      if txt ≠ "" && (txt.contains '.' || strOccursIn "http" (strLower txt)) then
        { d with website := some (strTrim txt) }
      else d
    else if strOccursIn "address" (strLower itemId) || strOccursIn "address" (strLower aria) then
      if aria ≠ "" && aria.contains ':' then
        { d with address := some (strTrim (afterFirstColon aria)) }
      else if txt ≠ "" then { d with address := some (strTrim txt) }
      else d
    else d

/-- Embeds the tel-link phone fallback (lines 230-237), attempted only when
the phone field is still falsy. -/
def telBlock (th : Except Unit (Option String)) (d : Details) : Details :=
  if truthyStr d.phone then d
  else
    match th with
    | .error _ => d
    | .ok none => d
    | .ok (some h) => { d with phone := some (strTrim (strReplace h "tel:" "")) }

/-- The rating half of the shared block (lines 243-247): parse the first
number run out of a non-empty combined label-or-text value. -/
def ratingUpdate (rtext : String) (d : Details) : Details :=
  if rtext ≠ "" then
    match firstDecimalRun rtext with
    | some m => { d with rating := some m }
    | none => d
  else d

/-- The review half of the shared block (lines 250-256): a raise of the review
query leaves the record as the rating half left it. -/
def reviewsUpdate (rvt : Except Unit String) (d1 : Details) : Details :=
  match rvt with
  | .error _ => d1
  | .ok rvtext =>
    if rvtext ≠ "" then
      match firstNumRun rvtext with
      | some m => { d1 with reviews_count := some (strReplace m "," "") }
      | none => d1
    else d1

/-- Embeds the rating-and-reviews block (lines 240-258).  Both fields share
one `try`: a raise of the rating query skips the review query as well, while
a raise of the review query leaves an already-set rating in place. -/
def ratingReviewsBlock (rt rvt : Except Unit String) (d : Details) : Details :=
  match rt with
  | .error _ => d
  | .ok rtext => reviewsUpdate rvt (ratingUpdate rtext d)

/-- Embeds the hours block (lines 261-267). -/
def hoursBlock (ht : Except Unit String) (d : Details) : Details :=
  match ht with
  | .error _ => d
  | .ok t => if t ≠ "" then { d with hours := some (strTrim t) } else d

/-- Embeds the price block (lines 270-278): the combined label-or-text value
must be non-empty and contain a dollar sign. -/
def priceBlock (pt : Except Unit String) (d : Details) : Details :=
  match pt with
  | .error _ => d
  | .ok t => if t ≠ "" && t.contains '$' then { d with price_level := some (strTrim t) } else d

/-- Embeds the email block (lines 281-289): the first regex match over the
whole panel text, if any. -/
def emailBlock (tOps : TextOps) (pt : Except Unit String) (d : Details) : Details :=
  match pt with
  | .error _ => d
  | .ok ptext =>
    match tOps.firstEmail ptext with
    | some m => { d with email := some m }
    | none => d

/-- Embeds `extract_listing_details_from_panel` (lines 149-296): the blocks in
source order.  A raise of the unprotected `buttonsFind` query jumps to the
outer handler (line 293), which returns the record accumulated so far; every
other query failure is caught inside its own block. -/
def extract_listing_details_from_panel (e : PanelEnv) (tOps : TextOps) : Details :=
  let d := nameBlock e.nameText initDetails
  let d := categoryBlock e.categoryText d
  match e.buttonsFind with
  | .error _ => d
  | .ok btns =>
    let d := btns.foldl (fun acc b => buttonStep tOps b acc) d
    let d := telBlock e.telHref d
    let d := ratingReviewsBlock e.ratingText e.reviewsText d
    let d := hoursBlock e.hoursText d
    let d := priceBlock e.priceText d
    emailBlock tOps e.panelText d

/-! ## String lemmas -/

theorem clStartsWith_append (l m : List Char) : clStartsWith l (l ++ m) = true := by
  induction l with
  | nil => rfl
  | cons a as ih => simp [clStartsWith, ih]

theorem clStartsWith_iff (p : List Char) :
    ∀ l, clStartsWith p l = true ↔ ∃ t, l = p ++ t := by
  induction p with
  | nil =>
    intro l
    constructor
    · intro _; exact ⟨l, rfl⟩
    · intro _; rfl
  | cons a as ih =>
    intro l
    cases l with
    | nil =>
      constructor
      · intro h; cases h
      · rintro ⟨t, ht⟩; cases ht
    | cons b bs =>
      simp only [clStartsWith, Bool.and_eq_true, beq_iff_eq, ih]
      constructor
      · rintro ⟨rfl, t, rfl⟩; exact ⟨t, rfl⟩
      · rintro ⟨t, ht⟩
        injection ht with h1 h2
        exact ⟨h1.symm, t, h2⟩

theorem takeWhile_append_of_all (p : Char → Bool) (l t : List Char)
    (hall : ∀ c ∈ l, p c = true) :
    (l ++ t).takeWhile p = l ++ t.takeWhile p := by
  induction l with
  | nil => rfl
  | cons a as ih =>
    have ha : p a = true := hall a (List.mem_cons_self a as)
    simp [List.takeWhile_cons, ha, ih fun c hc => hall c (List.mem_cons_of_mem a hc)]

theorem strEndsWith_append (a b : String) : strEndsWith b (a ++ b) = true := by
  unfold strEndsWith
  rw [show (a ++ b).data = a.data ++ b.data from rfl, List.reverse_append]
  exact clStartsWith_append _ _

/-- The four reversed characters of the suffix `".zip"`. -/
def zipRev : List Char := ['p', 'i', 'z', '.']

theorem zipRev_eq : ".zip".data.reverse = zipRev := by decide

theorem endsZip_basename (s : String) (h : strEndsWith ".zip" s = true) :
    strEndsWith ".zip" (basenameStr s) = true := by
  unfold strEndsWith at h ⊢
  rw [zipRev_eq] at h ⊢
  rcases (clStartsWith_iff zipRev _).mp h with ⟨t, ht⟩
  show clStartsWith zipRev (basenameCL s.data).reverse = true
  unfold basenameCL
  rw [List.reverse_reverse, ht,
    takeWhile_append_of_all _ zipRev t (by decide)]
  exact clStartsWith_append _ _

theorem endsZip_lower (s : String) (h : strEndsWith ".zip" s = true) :
    strEndsWith ".zip" (strLower s) = true := by
  unfold strEndsWith at h ⊢
  rw [zipRev_eq] at h ⊢
  rcases (clStartsWith_iff zipRev _).mp h with ⟨t, ht⟩
  show clStartsWith zipRev (s.data.map Char.toLower).reverse = true
  rw [← List.map_reverse, ht, List.map_append,
    show zipRev.map Char.toLower = zipRev from by decide]
  exact clStartsWith_append _ _

theorem not_excluded_not_zip (p : String) (h : should_exclude_file p = false) :
    strEndsWith ".zip" (strLower (basenameStr p)) = false := by
  by_cases hz : strEndsWith ".zip" (strLower (basenameStr p)) = true
  · exfalso
    unfold should_exclude_file at h
    rw [if_pos hz] at h
    cases h
  · exact Bool.not_eq_true _ |>.mp hz

/-! ## Archive-builder lemmas -/

/-- The totals reached by a walk pass, whether or not it escaped. -/
def accOfExc : Except ZipAcc ZipAcc → ZipAcc
  | .error a => a
  | .ok a => a

/-- The file-inclusion test of `create_directory_zip` for one file name in one
frame: not excluded by policy, not a hidden name under hidden-exclusion, and
the archive write succeeds. -/
def fileKept (env : ZipEnv) (excludeHidden : Bool) (root f : String) : Bool :=
  !should_exclude_file (joinPath root f) && !(excludeHidden && strStartsWith "." f)
    && !env.fileWriteFail (joinPath root f)

/-- The directory-inclusion test of `create_directory_zip` for one dir name. -/
def dirKept (excludeHidden : Bool) (d : String) : Bool :=
  !(excludeHidden && strStartsWith "." d)

theorem addDirs_fileEntries (env : ZipEnv) (eh : Bool) (root : String) (ds : List String) :
    ∀ acc, (accOfExc (addDirs env eh root ds acc)).fileEntries = acc.fileEntries := by
  induction ds with
  | nil => intro acc; rfl
  | cons d ds ih =>
    intro acc
    unfold addDirs
    by_cases h1 : eh && strStartsWith "." d
    · simp only [if_pos h1]; exact ih acc
    · simp only [if_neg h1]
      by_cases h2 : env.dirWriteFail (joinPath root d)
      · simp only [if_pos h2]; rfl
      · simp only [if_neg h2]; exact ih _

theorem addDirs_ok (env : ZipEnv) (eh : Bool) (root : String) (ds : List String)
    (hd : ∀ p, env.dirWriteFail p = false) :
    ∀ acc, ∃ a, addDirs env eh root ds acc = .ok a ∧
      a.dirEntries = acc.dirEntries ++ (ds.filter (dirKept eh)).map (joinPath root) ∧
      a.fileEntries = acc.fileEntries ∧
      a.filesAdded = acc.filesAdded ∧
      a.foldersAdded = acc.foldersAdded + (ds.filter (dirKept eh)).length ∧
      a.filesSkipped = acc.filesSkipped := by
  induction ds with
  | nil => intro acc; exact ⟨acc, rfl, by simp, rfl, rfl, by simp, rfl⟩
  | cons d ds ih =>
    intro acc
    unfold addDirs
    by_cases h1 : eh && strStartsWith "." d
    · rcases ih acc with ⟨a, ha, h2, h3, h4, h5, h6⟩
      refine ⟨a, by simp only [if_pos h1]; exact ha, ?_, h3, h4, ?_, h6⟩
      · rw [h2, List.filter_cons_of_neg (by simp [dirKept, h1])]
      · rw [h5, List.filter_cons_of_neg (by simp [dirKept, h1])]
    · rcases ih { acc with dirEntries := acc.dirEntries ++ [joinPath root d],
                           foldersAdded := acc.foldersAdded + 1 } with ⟨a, ha, h2, h3, h4, h5, h6⟩
      refine ⟨a, ?_, ?_, h3, h4, ?_, h6⟩
      · simp only [if_neg h1, hd (joinPath root d), if_neg (Bool.false_ne_true)]
        exact ha
      · rw [h2, List.filter_cons_of_pos (by simp [dirKept, h1])]
        simp [List.append_assoc]
      · rw [h5, List.filter_cons_of_pos (by simp [dirKept, h1])]
        simp only [List.length_cons]
        omega

theorem addFiles_fields (env : ZipEnv) (eh : Bool) (root : String) (fs : List String) :
    ∀ acc,
      (addFiles env eh root fs acc).fileEntries
        = acc.fileEntries ++ (fs.filter (fileKept env eh root)).map (joinPath root) ∧
      (addFiles env eh root fs acc).dirEntries = acc.dirEntries ∧
      (addFiles env eh root fs acc).filesAdded
        = acc.filesAdded + (fs.filter (fileKept env eh root)).length ∧
      (addFiles env eh root fs acc).foldersAdded = acc.foldersAdded := by
  induction fs with
  | nil => intro acc; exact ⟨by simp [addFiles], rfl, by simp [addFiles], rfl⟩
  | cons f fs ih =>
    intro acc
    unfold addFiles
    by_cases h1 : should_exclude_file (joinPath root f)
    · rcases ih { acc with filesSkipped := acc.filesSkipped + 1 } with ⟨h2, h3, h4, h5⟩
      have hk : fileKept env eh root f = false := by simp [fileKept, h1]
      simp only [if_pos h1]
      exact ⟨by rw [h2, List.filter_cons_of_neg (by simp [hk])],
             h3, by rw [h4, List.filter_cons_of_neg (by simp [hk])], h5⟩
    · by_cases h2 : eh && strStartsWith "." f
      · rcases ih { acc with filesSkipped := acc.filesSkipped + 1 } with ⟨h3, h4, h5, h6⟩
        have hk : fileKept env eh root f = false := by simp [fileKept, h2]
        simp only [if_neg h1, if_pos h2]
        exact ⟨by rw [h3, List.filter_cons_of_neg (by simp [hk])],
               h4, by rw [h5, List.filter_cons_of_neg (by simp [hk])], h6⟩
      · by_cases h3 : env.fileWriteFail (joinPath root f)
        · rcases ih acc with ⟨h4, h5, h6, h7⟩
          have hk : fileKept env eh root f = false := by simp [fileKept, h3]
          simp only [if_neg h1, if_neg h2, if_pos h3]
          exact ⟨by rw [h4, List.filter_cons_of_neg (by simp [hk])],
                 h5, by rw [h6, List.filter_cons_of_neg (by simp [hk])], h7⟩
        · rcases ih { acc with fileEntries := acc.fileEntries ++ [joinPath root f],
                               filesAdded := acc.filesAdded + 1 } with ⟨h4, h5, h6, h7⟩
          have hk : fileKept env eh root f = true := by simp [fileKept, h1, h2, h3]
          simp only [if_neg h1, if_neg h2, if_neg h3]
          refine ⟨?_, h5, ?_, h7⟩
          · rw [h4, List.filter_cons_of_pos (by simp [hk])]
            simp [List.append_assoc]
          · rw [h6, List.filter_cons_of_pos (by simp [hk])]
            simp only [List.length_cons]
            omega

theorem addFiles_mem (env : ZipEnv) (eh : Bool) (root : String) (fs : List String)
    (acc : ZipAcc) (e : String) (h : e ∈ (addFiles env eh root fs acc).fileEntries) :
    e ∈ acc.fileEntries ∨ should_exclude_file e = false := by
  rcases (addFiles_fields env eh root fs acc).1 with h2
  rw [h2] at h
  rcases List.mem_append.mp h with h | h
  · exact Or.inl h
  · right
    rcases List.mem_map.mp h with ⟨f, hf, rfl⟩
    have hk := List.of_mem_filter hf
    unfold fileKept at hk
    simp only [Bool.and_eq_true, Bool.not_eq_true'] at hk
    exact hk.1.1

theorem processFrames_mem (env : ZipEnv) (eh : Bool) (frames : List Frame) :
    ∀ acc e, e ∈ (accOfExc (processFrames env eh frames acc)).fileEntries →
      e ∈ acc.fileEntries ∨ should_exclude_file e = false := by
  induction frames with
  | nil => intro acc e h; exact Or.inl h
  | cons fr frs ih =>
    intro acc e h
    unfold processFrames at h
    cases hd : addDirs env eh fr.root fr.dirs acc with
    | error a =>
      rw [hd] at h
      left
      have := addDirs_fileEntries env eh fr.root fr.dirs acc
      rw [hd] at this
      exact this ▸ h
    | ok a =>
      rw [hd] at h
      rcases ih _ e h with h2 | h2
      · rcases addFiles_mem env eh fr.root fr.files a e h2 with h3 | h3
        · left
          have := addDirs_fileEntries env eh fr.root fr.dirs acc
          rw [hd] at this
          exact this ▸ h3
        · exact Or.inr h3
      · exact Or.inr h2

theorem processFrames_ok (env : ZipEnv) (eh : Bool) (frames : List Frame)
    (hd : ∀ p, env.dirWriteFail p = false) :
    ∀ acc, ∃ a, processFrames env eh frames acc = .ok a ∧
      a.dirEntries = acc.dirEntries
        ++ frames.flatMap (fun fr => (fr.dirs.filter (dirKept eh)).map (joinPath fr.root)) ∧
      a.fileEntries = acc.fileEntries
        ++ frames.flatMap (fun fr => (fr.files.filter (fileKept env eh fr.root)).map (joinPath fr.root)) ∧
      a.filesAdded = acc.filesAdded
        + (frames.flatMap (fun fr => fr.files.filter (fileKept env eh fr.root))).length := by
  induction frames with
  | nil => intro acc; exact ⟨acc, rfl, by simp, by simp, by simp⟩
  | cons fr frs ih =>
    intro acc
    rcases addDirs_ok env eh fr.root fr.dirs hd acc with ⟨a1, ha1, d1, f1, c1, _, _⟩
    rcases addFiles_fields env eh fr.root fr.files a1 with ⟨f2, d2, c2, _⟩
    rcases ih (addFiles env eh fr.root fr.files a1) with ⟨a3, ha3, d3, f3, c3⟩
    refine ⟨a3, ?_, ?_, ?_, ?_⟩
    · unfold processFrames
      rw [ha1]
      exact ha3
    · rw [d3, d2, d1, List.flatMap_cons, List.append_assoc]
    · rw [f3, f2, f1, List.flatMap_cons, List.append_assoc]
    · rw [c3, c2, c1, List.flatMap_cons, List.length_append]
      omega

/-- The output filename computed by `create_directory_zip` always carries the
`.zip` suffix, for both the user-supplied and the generated name. -/
theorem create_outputName_zip (nm : Option String) (ts : String) (eh : Bool)
    (frames : List Frame) (env : ZipEnv) :
    strEndsWith ".zip" (create_directory_zip nm ts eh frames env).outputName = true := by
  have key : ∀ n0 : String,
      strEndsWith ".zip" (if strEndsWith ".zip" n0 then n0 else n0 ++ ".zip") = true := by
    intro n0
    by_cases h : strEndsWith ".zip" n0 = true
    · rw [if_pos h]; exact h
    · rw [if_neg h]; exact strEndsWith_append n0 ".zip"
  unfold create_directory_zip
  by_cases hc : env.createFail
  · simp only [if_pos hc]
    exact key _
  · simp only [if_neg hc]
    cases hp : processFrames env eh frames initZipAcc with
    | error a => exact key _
    | ok a => exact key _

/-- Every file entry of the archive passed the exclusion policy, whatever the
failure oracle did. -/
theorem create_fileEntries_not_excluded (nm : Option String) (ts : String) (eh : Bool)
    (frames : List Frame) (env : ZipEnv) (e : String)
    (h : e ∈ (create_directory_zip nm ts eh frames env).fileEntries) :
    should_exclude_file e = false := by
  unfold create_directory_zip at h
  by_cases hc : env.createFail
  · simp only [if_pos hc] at h
    cases h
  · simp only [if_neg hc] at h
    cases hp : processFrames env eh frames initZipAcc with
    | error a =>
      rw [hp] at h
      have := processFrames_mem env eh frames initZipAcc e (by rw [hp]; exact h)
      rcases this with h2 | h2
      · cases h2
      · exact h2
    | ok a =>
      rw [hp] at h
      have := processFrames_mem env eh frames initZipAcc e (by rw [hp]; exact h)
      rcases this with h2 | h2
      · cases h2
      · exact h2

theorem create_ok_fields (nm : Option String) (ts : String) (eh : Bool)
    (frames : List Frame) (env : ZipEnv) (hc : env.createFail = false)
    (hd : ∀ p, env.dirWriteFail p = false) :
    (create_directory_zip nm ts eh frames env).success = true ∧
    (create_directory_zip nm ts eh frames env).dirEntries
      = frames.flatMap (fun fr => (fr.dirs.filter (dirKept eh)).map (joinPath fr.root)) ∧
    (create_directory_zip nm ts eh frames env).fileEntries
      = frames.flatMap (fun fr => (fr.files.filter (fileKept env eh fr.root)).map (joinPath fr.root)) ∧
    (create_directory_zip nm ts eh frames env).filesAdded
      = (frames.flatMap (fun fr => fr.files.filter (fileKept env eh fr.root))).length := by
  rcases processFrames_ok env eh frames hd initZipAcc with ⟨a, ha, hdirs, hfiles, hcount⟩
  unfold create_directory_zip
  simp only [hc, Bool.false_eq_true, if_false, ha]
  refine ⟨by simp, ?_, ?_, ?_⟩
  · rw [hdirs]; simp [initZipAcc]
  · rw [hfiles]; simp [initZipAcc]
  · rw [hcount]; simp [initZipAcc]

/-- No-failure archive environment for concrete runs. -/
def plainZipEnv : ZipEnv := ⟨false, fun _ => false, fun _ => false⟩

/-! ## Claim C5 -/

/-- The exclusion condition exactly as the claim words it. -/
def excludedSpecC5 (p : String) : Prop :=
  strEndsWith ".zip" (strLower (basenameStr p)) = true ∨
  strStartsWith "." (basenameStr p) = true ∨
  ∃ ext ∈ tempExtensions, strEndsWith ext (basenameStr p) = true

/-- C5: the exclusion predicate excludes an entry if and only if its basename
ends with `.zip` case-insensitively, or starts with `.`, or ends with one of
`.tmp`, `.temp`, `.swp`, `.bak`, `~`; it excludes `backup_20230101.zip`,
`.env` and `notes.tmp`, and includes `report.xlsx` and `data/file.csv`. -/
theorem C5_exclusion_policy :
    (∀ p : String, should_exclude_file p = true ↔ excludedSpecC5 p) ∧
    should_exclude_file "backup_20230101.zip" = true ∧
    should_exclude_file ".env" = true ∧
    should_exclude_file "notes.tmp" = true ∧
    should_exclude_file "report.xlsx" = false ∧
    should_exclude_file "data/file.csv" = false := by
  refine ⟨fun p => ?_, by decide, by decide, by decide, by decide, by decide⟩
  simp only [should_exclude_file, excludedSpecC5]
  split_ifs with h1 h2 h3
  · simp [h1]
  · simp [h1, h2]
  · simp only [List.any_eq_true] at h3
    simp only [true_iff]
    exact Or.inr (Or.inr h3)
  · simp only [List.any_eq_true] at h3
    constructor
    · intro h; cases h
    · rintro (h | h | h)
      · exact absurd h h1
      · exact absurd h h2
      · exact absurd h h3

/-! ## Claim C4 -/

/-- C4 counterexample: on `"12+34567890"` the code keeps the interior plus
sign, while the claimed map (leading plus only) drops it; on `"nan"` the code
returns `""`, while the claimed map returns the original string. -/
theorem C4_counterexample :
    clean_phone_number "12+34567890" = "12+34567890" ∧
    cleanPhoneClaimSpec "12+34567890" = "1234567890" ∧
    clean_phone_number "12+34567890" ≠ cleanPhoneClaimSpec "12+34567890" ∧
    clean_phone_number "nan" = "" ∧
    cleanPhoneClaimSpec "nan" = "nan" ∧
    clean_phone_number "nan" ≠ cleanPhoneClaimSpec "nan" :=
  ⟨by decide, by decide, by decide, by decide, by decide, by decide⟩

/-- C4 as amended: the empty and `"nan"` inputs clean to `""`; otherwise the
cleaning keeps the digits and every plus sign (not only a leading one),
returns the kept form when it has length at least 10 and the raw input
otherwise; on the claim's own examples it yields `"+15551234567"` and
`"n/a"`. -/
theorem C4_amended_phone_cleaning :
    (∀ s : String, clean_phone_number s = cleanPhoneAmendedSpec s) ∧
    clean_phone_number "+1 (555) 123-4567" = "+15551234567" ∧
    clean_phone_number "n/a" = "n/a" := by
  refine ⟨fun s => ?_, by decide, by decide⟩
  have hfe : s.data.filter (fun c => c.isDigit || c == '+')
      = s.data.foldr (fun c acc => if c.isDigit ∨ c = '+' then c :: acc else acc) [] := by
    induction s.data with
    | nil => rfl
    | cons c cs ih =>
      by_cases h : c.isDigit ∨ c = '+'
      · have hb : (c.isDigit || c == '+') = true := by
          rcases h with h | h
          · simp [h]
          · simp [h]
        simp only [List.filter_cons, hb, if_true, List.foldr_cons, if_pos h, ih]
      · have hb : (c.isDigit || c == '+') = false := by
          rcases not_or.mp h with ⟨ha, hb⟩
          simp only [Bool.or_eq_false_iff]
          exact ⟨Bool.not_eq_true _ |>.mp ha, by simpa using hb⟩
        simp only [List.filter_cons, hb, Bool.false_eq_true, if_false, List.foldr_cons,
          if_neg h, ih]
  unfold clean_phone_number cleanPhoneAmendedSpec keepDigitsPlus
  by_cases h0 : s = "" ∨ s = "nan"
  · have hb : (s == "" || s == "nan") = true := by
      rcases h0 with h | h <;> simp [h]
    simp [hb, h0]
  · have hb : (s == "" || s == "nan") = false := by
      rcases not_or.mp h0 with ⟨ha, hc⟩
      simp only [Bool.or_eq_false_iff, beq_eq_false_iff_ne]
      exact ⟨ha, hc⟩
    simp only [hb, Bool.false_eq_true, if_false, if_neg h0, hfe, ge_iff_le]

/-! ## Claim C10 -/

/-- C10: the output filename always ends in `.zip`, and since every file whose
lowered basename ends in `.zip` is excluded, no file entry of the archive can
share the archive's own basename — the archive never contains itself. -/
theorem C10_archive_never_contains_itself (nm : Option String) (ts : String)
    (eh : Bool) (frames : List Frame) (env : ZipEnv) :
    strEndsWith ".zip" (create_directory_zip nm ts eh frames env).outputName = true ∧
    ∀ e ∈ (create_directory_zip nm ts eh frames env).fileEntries,
      basenameStr e ≠ basenameStr (create_directory_zip nm ts eh frames env).outputName := by
  refine ⟨create_outputName_zip nm ts eh frames env, fun e he heq => ?_⟩
  have hout : strEndsWith ".zip"
      (strLower (basenameStr (create_directory_zip nm ts eh frames env).outputName)) = true :=
    endsZip_lower _ (endsZip_basename _ (create_outputName_zip nm ts eh frames env))
  have hentry : strEndsWith ".zip" (strLower (basenameStr e)) = false :=
    not_excluded_not_zip e (create_fileEntries_not_excluded nm ts eh frames env e he)
  rw [heq, hout] at hentry
  cases hentry

/-- Concrete frame list used by the C10 witness. -/
def framesC10 : List Frame := [⟨".", [], ["a.txt"]⟩]

/-- C10 witness: a concrete run whose single file entry `./a.txt` differs in
basename from the forced output name `b.zip`. -/
theorem C10_witness :
    basenameStr "./a.txt"
      ≠ basenameStr (create_directory_zip (some "b") "t" true framesC10 plainZipEnv).outputName :=
  (C10_archive_never_contains_itself (some "b") "t" true framesC10 plainZipEnv).2
    "./a.txt" (by decide)

/-! ## Claim C9 -/

/-- C9: a per-file write failure is non-fatal — the run still succeeds, the
failing file is simply absent from the entries and from the `files_added`
count while later files are still processed (the entry list is exactly the
kept files of every frame, in walk order); an archive-creation failure makes
`create_directory_zip` return failure; and `main` exits with code `1` when
the build reports failure after a confirmed prompt. -/
theorem C9_failure_modes :
    (∀ nm ts eh frames env, (env : ZipEnv).createFail = false →
      (∀ p, env.dirWriteFail p = false) →
      (create_directory_zip nm ts eh frames env).success = true ∧
      (create_directory_zip nm ts eh frames env).fileEntries
        = frames.flatMap (fun fr => (fr.files.filter (fileKept env eh fr.root)).map (joinPath fr.root)) ∧
      (create_directory_zip nm ts eh frames env).filesAdded
        = (frames.flatMap (fun fr => fr.files.filter (fileKept env eh fr.root))).length) ∧
    (∀ nm ts eh frames env, (env : ZipEnv).createFail = true →
      (create_directory_zip nm ts eh frames env).success = false) ∧
    (∀ outputArg ih v resp ts frames env,
      (v = true ∨ strTrim (strLower resp) = "y" ∨ strTrim (strLower resp) = "yes") →
      (create_directory_zip outputArg ts (!ih) frames env).success = false →
      (mainRun outputArg ih v resp ts frames env).1 = 1) := by
  refine ⟨fun nm ts eh frames env hc hd => ?_, fun nm ts eh frames env hc => ?_,
    fun outputArg ih v resp ts frames env hp hs => ?_⟩
  · rcases create_ok_fields nm ts eh frames env hc hd with ⟨h1, _, h3, h4⟩
    exact ⟨h1, h3, h4⟩
  · unfold create_directory_zip
    simp only [hc, if_true]
  · unfold mainRun
    rcases hp with hv | hy | hy
    · simp [hv, hs]
    · simp [hy, hs]
    · simp [hy, hs]

/-- Concrete data for the C9 witness: two files, the first of which fails to
write. -/
def framesC9 : List Frame := [⟨".", [], ["a.txt", "b.txt"]⟩]

/-- Archive environment in which only `./a.txt` fails to write. -/
def envC9 : ZipEnv := ⟨false, fun _ => false, fun p => p == "./a.txt"⟩

/-- C9 witness: with the write of `./a.txt` failing, the build still succeeds,
skips that file, and goes on to add `./b.txt`. -/
theorem C9_witness :
    (create_directory_zip none "t" true framesC9 envC9).success = true ∧
    (create_directory_zip none "t" true framesC9 envC9).fileEntries = ["./b.txt"] ∧
    (create_directory_zip none "t" true framesC9 envC9).filesAdded = 1 := by
  have h := C9_failure_modes.1 none "t" true framesC9 envC9 rfl (fun _ => rfl)
  refine ⟨h.1, ?_, ?_⟩
  · rw [h.2.1]; decide
  · rw [h.2.2]; decide

/-! ## Claim C6 -/

/-- The tree used to examine C6: a hidden directory `.h` holding a plain file. -/
def exHiddenTree : FSTree := .dir "." [.dir ".h" [.file "a.txt"]]

/-- Evaluated walk of the example tree: the walk emits a frame for the hidden
directory `./.h` because nothing prunes the `dirs` list. -/
theorem osWalk_exHiddenTree :
    osWalk exHiddenTree = [⟨".", [".h"], []⟩, ⟨"./.h", [], ["a.txt"]⟩] := by
  simp [osWalk, exHiddenTree, walkChildren, dirNamesOf, fileNamesOf, joinPath]

/-- C6 counterexample: the walk descends into the hidden directory `./.h`
(second frame), and the file `./.h/a.txt`, which lies under the hidden
directory, is added to the archive even with hidden-exclusion on — refuting
the claim that nothing under a hidden directory is ever added. -/
theorem C6_counterexample :
    osWalk exHiddenTree = [⟨".", [".h"], []⟩, ⟨"./.h", [], ["a.txt"]⟩] ∧
    strStartsWith "." ".h" = true ∧
    (create_directory_zip none "20240101_000000" true (osWalk exHiddenTree) plainZipEnv).fileEntries
      = ["./.h/a.txt"] := by
  refine ⟨osWalk_exHiddenTree, by decide, ?_⟩
  rw [osWalk_exHiddenTree]
  decide

/-- C6 as amended: with hidden-exclusion on, the hidden directory itself is
never written as an archive entry (directory entries are exactly the
non-hidden names of every frame), but the walker still descends, and file
entries are decided by each file's own name alone (exactly the kept files of
every frame), so files under hidden directories are still added. -/
theorem C6_amended_hidden_handling :
    ∀ ts frames env, (env : ZipEnv).createFail = false →
      (∀ p, env.dirWriteFail p = false) →
      (create_directory_zip none ts true frames env).dirEntries
        = frames.flatMap (fun fr => (fr.dirs.filter (fun d => !strStartsWith "." d)).map (joinPath fr.root)) ∧
      (create_directory_zip none ts true frames env).fileEntries
        = frames.flatMap (fun fr => (fr.files.filter (fileKept env true fr.root)).map (joinPath fr.root)) := by
  intro ts frames env hc hd
  rcases create_ok_fields none ts true frames env hc hd with ⟨_, h2, h3, _⟩
  exact ⟨h2, h3⟩

/-- C6 witness: on the hidden-subtree example with no I/O failures, the
amended characterization evaluates to no directory entries and exactly the
file under the hidden directory. -/
theorem C6_witness :
    (create_directory_zip none "t" true (osWalk exHiddenTree) plainZipEnv).dirEntries = [] ∧
    (create_directory_zip none "t" true (osWalk exHiddenTree) plainZipEnv).fileEntries
      = ["./.h/a.txt"] := by
  have h := C6_amended_hidden_handling "t" (osWalk exHiddenTree) plainZipEnv rfl (fun _ => rfl)
  rw [osWalk_exHiddenTree] at h
  rw [osWalk_exHiddenTree]
  refine ⟨?_, ?_⟩
  · rw [h.1]; decide
  · rw [h.2]; decide

/-! ## Controller lemmas -/

/-- The controller state an outer pass hands on, whether it broke or not. -/
def stOf : (LoopState × ExitCause) ⊕ LoopState → LoopState
  | .inl r => r.1
  | .inr s => s

/-- A feed that never grows: every scroll attempt reports no new items.  This
is the realizable never-growing behaviour, since `scroll_results_panel`
catches its own exceptions and returns `False` (mapsexcel.py lines 352-354). -/
def allNoGrow (env : FeedEnv) : Prop :=
  ∀ n, env.scroll n = ScrollOutcome.noGrow

theorem maybeScroll_results (env : FeedEnv) (s : LoopState) :
    (maybeScroll env s).1.results = s.results := by
  unfold maybeScroll
  by_cases h : s.consecutiveFailures > 3
  · simp only [if_pos h]
    cases env.scroll s.scrollCalls with
    | grew => rfl
    | noGrow => rfl
    | raised msg => by_cases hf : fatalMsg msg = true <;> simp [hf]
  · simp [if_neg h]

theorem maybeScroll_processed (env : FeedEnv) (s : LoopState) :
    (maybeScroll env s).1.processedIndices = s.processedIndices := by
  unfold maybeScroll
  by_cases h : s.consecutiveFailures > 3
  · simp only [if_pos h]
    cases env.scroll s.scrollCalls with
    | grew => rfl
    | noGrow => rfl
    | raised msg => by_cases hf : fatalMsg msg = true <;> simp [hf]
  · simp [if_neg h]

theorem innerStep_results (env : FeedEnv) (s : LoopState) (i : Nat) :
    ∃ t, (innerStep env s i).1.results = s.results ++ t ∧
      ∀ d ∈ t, truthyStr d.name = true := by
  unfold innerStep
  by_cases h1 : env.stop s.stopChecks = true
  · exact ⟨[], by simp [h1], by simp⟩
  · simp only [h1, Bool.false_eq_true, if_false]
    by_cases h2 : i ∈ { s with stopChecks := s.stopChecks + 1 }.processedIndices
    · exact ⟨[], by simp [h2], by simp⟩
    · simp only [if_neg h2]
      cases hv : env.visit s.visitCalls with
      | parsed d =>
        by_cases hn : truthyStr d.name = true
        · refine ⟨[d], ?_, by simpa using hn⟩
          simp only [if_pos hn]
          rw [maybeScroll_results]
        · refine ⟨[], ?_, by simp⟩
          simp only [hn, Bool.false_eq_true, if_false]
          rw [maybeScroll_results]
          simp
      | clickFail =>
        refine ⟨[], ?_, by simp⟩
        rw [maybeScroll_results]
        simp
      | raised msg =>
        by_cases hf : fatalMsg msg = true
        · exact ⟨[], by simp [hf], by simp⟩
        · refine ⟨[], ?_, by simp⟩
          simp only [hf, Bool.false_eq_true, if_false]
          rw [maybeScroll_results]
          simp

theorem innerLoop_results (env : FeedEnv) :
    ∀ (l : List Nat) (s : LoopState),
      ∃ t, (innerLoop env s l).results = s.results ++ t ∧
        ∀ d ∈ t, truthyStr d.name = true := by
  intro l
  induction l with
  | nil => intro s; exact ⟨[], by simp [innerLoop], by simp⟩
  | cons i rest ih =>
    intro s
    rcases innerStep_results env s i with ⟨t1, ht1, ha1⟩
    unfold innerLoop
    rcases hstep : innerStep env s i with ⟨s', sig⟩
    rw [hstep] at ht1
    cases sig with
    | brk => exact ⟨t1, ht1, ha1⟩
    | next =>
      rcases ih s' with ⟨t2, ht2, ha2⟩
      refine ⟨t1 ++ t2, ?_, ?_⟩
      · rw [ht2, ht1, List.append_assoc]
      · intro d hd
        rcases List.mem_append.mp hd with hd | hd
        · exact ha1 d hd
        · exact ha2 d hd

theorem outerPass_results (env : FeedEnv) (s : LoopState) :
    ∃ t, (stOf (outerPass env s)).results = s.results ++ t ∧
      ∀ d ∈ t, truthyStr d.name = true := by
  unfold outerPass
  by_cases h1 : env.stop s.stopChecks = true
  · exact ⟨[], by simp [h1, stOf], by simp⟩
  · simp only [h1, Bool.false_eq_true, if_false]
    by_cases h2 : env.counts s.countCalls = 0
    · exact ⟨[], by simp [h2, stOf], by simp⟩
    · simp only [if_neg h2]
      rcases innerLoop_results env
          (List.range (env.counts s.countCalls))
          { s with stopChecks := s.stopChecks + 1, countCalls := s.countCalls + 1 }
        with ⟨t, ht, ha⟩
      set s1 := innerLoop env
          { s with stopChecks := s.stopChecks + 1, countCalls := s.countCalls + 1 }
          (List.range (env.counts s.countCalls)) with hs1
      by_cases h3 : env.stop s1.stopChecks = true
    
      · exact ⟨t, by simp [h3, stOf, ht], ha⟩
      · simp only [h3, Bool.false_eq_true, if_false]
        cases hsc : env.scroll s1.scrollCalls with
        | grew =>
          by_cases h4 : (0 : Nat) > 3
          · exact ⟨t, by simp [h4, stOf, ht], ha⟩
          · exact ⟨t, by simp [h4, stOf, ht], ha⟩
        | noGrow =>
          by_cases h4 : s1.noNewResultsCount + 1 > 3
          · exact ⟨t, by simp [h4, stOf, ht], ha⟩
          · exact ⟨t, by simp [h4, stOf, ht], ha⟩
        | raised msg =>
          by_cases h4 : fatalMsg msg = true
          · exact ⟨t, by simp [h4, stOf, ht], ha⟩
          · by_cases h5 : s1.noNewResultsCount > 3
            · exact ⟨t, by simp [h4, h5, stOf, ht], ha⟩
            · exact ⟨t, by simp [h4, h5, stOf, ht], ha⟩

theorem outerLoop_results (env : FeedEnv) :
    ∀ (fuel : Nat) (s0 s : LoopState) (c : ExitCause),
      outerLoop env fuel s0 = some (s, c) →
      ∃ t, s.results = s0.results ++ t ∧ ∀ d ∈ t, truthyStr d.name = true := by
  intro fuel
  induction fuel with
  | zero => intro s0 s c h; cases h
  | succ fuel ih =>
    intro s0 s c h
    unfold outerLoop at h
    rcases outerPass_results env s0 with ⟨t1, ht1, ha1⟩
    cases hp : outerPass env s0 with
    | inl r =>
      rw [hp] at h ht1
      injection h with h
      subst h
      simp only [stOf] at ht1
      exact ⟨t1, ht1, ha1⟩
    | inr s1 =>
      rw [hp] at h ht1
      simp only [stOf] at ht1
      rcases ih s1 s c h with ⟨t2, ht2, ha2⟩
      refine ⟨t1 ++ t2, ?_, ?_⟩
      · rw [ht2, ht1, List.append_assoc]
      · intro d hd
        rcases List.mem_append.mp hd with hd | hd
        · exact ha1 d hd
        · exact ha2 d hd

theorem maybeScroll_nn_mono (env : FeedEnv) (s : LoopState) (h : allNoGrow env) :
    s.noNewResultsCount ≤ (maybeScroll env s).1.noNewResultsCount := by
  unfold maybeScroll
  by_cases hc : s.consecutiveFailures > 3
  · simp only [if_pos hc, h s.scrollCalls]
    omega
  · simp [if_neg hc]

theorem innerStep_nn_mono (env : FeedEnv) (s : LoopState) (i : Nat) (h : allNoGrow env) :
    s.noNewResultsCount ≤ (innerStep env s i).1.noNewResultsCount := by
  unfold innerStep
  by_cases h1 : env.stop s.stopChecks = true
  · simp [h1]
  · simp only [h1, Bool.false_eq_true, if_false]
    by_cases h2 : i ∈ { s with stopChecks := s.stopChecks + 1 }.processedIndices
    · simp [h2]
    · simp only [if_neg h2]
      cases hv : env.visit s.visitCalls with
      | parsed d =>
        by_cases hn : truthyStr d.name = true
        · simp only [if_pos hn]
          refine le_trans ?_ (maybeScroll_nn_mono env _ h)
          exact Nat.le_refl _
        · simp only [hn, Bool.false_eq_true, if_false]
          refine le_trans ?_ (maybeScroll_nn_mono env _ h)
          exact Nat.le_refl _
      | clickFail =>
        refine le_trans ?_ (maybeScroll_nn_mono env _ h)
        exact Nat.le_refl _
      | raised msg =>
        by_cases hf : fatalMsg msg = true
        · simp [hf]
        · simp only [hf, Bool.false_eq_true, if_false]
          refine le_trans ?_ (maybeScroll_nn_mono env _ h)
          exact Nat.le_refl _

theorem innerLoop_nn_mono (env : FeedEnv) (h : allNoGrow env) :
    ∀ (l : List Nat) (s : LoopState),
      s.noNewResultsCount ≤ (innerLoop env s l).noNewResultsCount := by
  intro l
  induction l with
  | nil => intro s; simp [innerLoop]
  | cons i rest ih =>
    intro s
    have hstep := innerStep_nn_mono env s i h
    unfold innerLoop
    rcases hp : innerStep env s i with ⟨s', sig⟩
    rw [hp] at hstep
    cases sig with
    | brk => exact hstep
    | next => exact le_trans hstep (ih s')

/-- Under a never-growing feed, one outer pass either exits with one of the
three non-fatal causes or strictly increases the no-growth counter while
staying at or below the threshold. -/
theorem outerPass_noGrow (env : FeedEnv) (s : LoopState) (h : allNoGrow env) :
    (∃ s' c, outerPass env s = .inl (s', c) ∧
      (c = ExitCause.noGrowth ∨ c = ExitCause.zeroItems ∨ c = ExitCause.stopRequested)) ∨
    (∃ s', outerPass env s = .inr s' ∧
      s.noNewResultsCount + 1 ≤ s'.noNewResultsCount ∧ s'.noNewResultsCount ≤ 3) := by
  unfold outerPass
  by_cases h1 : env.stop s.stopChecks = true
  · simp only [if_pos h1]
    exact Or.inl ⟨_, _, rfl, Or.inr (Or.inr rfl)⟩
  · simp only [h1, Bool.false_eq_true, if_false]
    by_cases h2 : env.counts s.countCalls = 0
    · simp only [if_pos h2]
      exact Or.inl ⟨_, _, rfl, Or.inr (Or.inl rfl)⟩
    · simp only [if_neg h2]
      set s1 := innerLoop env
          { s with stopChecks := s.stopChecks + 1, countCalls := s.countCalls + 1 }
          (List.range (env.counts s.countCalls)) with hs1
      have hmono : s.noNewResultsCount ≤ s1.noNewResultsCount := by
        rw [hs1]
        refine le_trans ?_ (innerLoop_nn_mono env h (List.range (env.counts s.countCalls))
          { s with stopChecks := s.stopChecks + 1, countCalls := s.countCalls + 1 })
        exact Nat.le_refl _
      by_cases h3 : env.stop s1.stopChecks = true
      · simp only [if_pos h3]
        exact Or.inl ⟨_, _, rfl, Or.inr (Or.inr rfl)⟩
      · simp only [h3, Bool.false_eq_true, if_false, h s1.scrollCalls]
        by_cases h4 : s1.noNewResultsCount + 1 > 3
        · simp only [if_pos h4]
          exact Or.inl ⟨_, _, rfl, Or.inl rfl⟩
        · simp only [if_neg h4]
          refine Or.inr ⟨_, rfl, ?_, ?_⟩
          · show s.noNewResultsCount + 1 ≤ s1.noNewResultsCount + 1
            omega
          · show s1.noNewResultsCount + 1 ≤ 3
            omega

/-- Bounded termination under a never-growing feed: once the counter headroom
is covered by the fuel, the loop reaches an exit with a non-fatal cause. -/
theorem outerLoop_noGrow_term (env : FeedEnv) (h : allNoGrow env) :
    ∀ (fuel : Nat) (s : LoopState), 5 ≤ s.noNewResultsCount + fuel → 1 ≤ fuel →
      (outerLoop env fuel s).isSome = true ∧
      ∀ s' c, outerLoop env fuel s = some (s', c) →
        (c = ExitCause.noGrowth ∨ c = ExitCause.zeroItems ∨ c = ExitCause.stopRequested) := by
  intro fuel
  induction fuel with
  | zero => intro s hle hf; cases hf
  | succ fuel ih =>
    intro s hle _
    have hstep : outerLoop env (fuel + 1) s
        = match outerPass env s with
          | .inl r => some r
          | .inr s' => outerLoop env fuel s' := rfl
    rcases outerPass_noGrow env s h with ⟨s', c, hp, hc⟩ | ⟨s', hp, hinc, hcap⟩
    · rw [hstep, hp]
      refine ⟨rfl, fun s2 c2 h2 => ?_⟩
      injection h2 with h2
      have : c2 = c := congrArg Prod.snd h2.symm
      rw [this]
      exact hc
    · have hfuel : 1 ≤ fuel := by omega
      have hle2 : 5 ≤ s'.noNewResultsCount + fuel := by omega
      have hrec := ih s' hle2 hfuel
      rw [hstep, hp]
      exact hrec

/-- Every `noGrowth` break happens with the counter strictly above the
threshold value 3, that is only after at least 4 no-growth scroll attempts. -/
theorem outerPass_noGrowth_threshold (env : FeedEnv) (s s' : LoopState)
    (h : outerPass env s = .inl (s', ExitCause.noGrowth)) :
    s'.noNewResultsCount > 3 := by
  unfold outerPass at h
  by_cases h1 : env.stop s.stopChecks = true
  · simp only [if_pos h1] at h
    injection h with h
    cases congrArg Prod.snd h
  · simp only [h1, Bool.false_eq_true, if_false] at h
    by_cases h2 : env.counts s.countCalls = 0
    · simp only [if_pos h2] at h
      injection h with h
      cases congrArg Prod.snd h
    · simp only [if_neg h2] at h
      set s1 := innerLoop env
          { s with stopChecks := s.stopChecks + 1, countCalls := s.countCalls + 1 }
          (List.range (env.counts s.countCalls)) with hs1
      by_cases h3 : env.stop s1.stopChecks = true
      · simp only [if_pos h3] at h
        injection h with h
        cases congrArg Prod.snd h
      · simp only [h3, Bool.false_eq_true, if_false] at h
        cases hsc : env.scroll s1.scrollCalls with
        | grew =>
          rw [hsc] at h
          by_cases h4 : (0 : Nat) > 3
          · omega
          · simp only [if_neg h4] at h
            cases h
        | noGrow =>
          rw [hsc] at h
          by_cases h4 : s1.noNewResultsCount + 1 > 3
          · simp only [if_pos h4] at h
            injection h with h
            injection h with hA hB
            rw [← hA]
            exact h4
          · simp only [if_neg h4] at h
            cases h
        | raised msg =>
          rw [hsc] at h
          by_cases h5 : fatalMsg msg = true
          · simp only [if_pos h5] at h
            injection h with h
            cases congrArg Prod.snd h
          · simp only [h5, Bool.false_eq_true, if_false] at h
            by_cases h6 : s1.noNewResultsCount > 3
            · simp only [if_pos h6] at h
              injection h with h
              injection h with hA hB
              rw [← hA]
              exact h6
            · simp only [if_neg h6] at h
              cases h

/-- Lifted to the whole loop: whenever the run ends with the `noGrowth`
cause, the no-growth counter did exceed 3. -/
theorem outerLoop_noGrowth_threshold (env : FeedEnv) :
    ∀ (fuel : Nat) (s0 s : LoopState),
      outerLoop env fuel s0 = some (s, ExitCause.noGrowth) →
      s.noNewResultsCount > 3 := by
  intro fuel
  induction fuel with
  | zero => intro s0 s h; cases h
  | succ fuel ih =>
    intro s0 s h
    have hstep : outerLoop env (fuel + 1) s0
        = match outerPass env s0 with
          | .inl r => some r
          | .inr s' => outerLoop env fuel s' := rfl
    rw [hstep] at h
    cases hp : outerPass env s0 with
    | inl r =>
      rw [hp] at h
      injection h with h
      subst h
      exact outerPass_noGrowth_threshold env s0 s hp
    | inr s1 =>
      rw [hp] at h
      exact ih s1 s h

/-! ## Claim C1 -/

/-- C1: (1) every record in the final accumulated list of any terminating run
has a truthy (non-`None`, non-empty) name; (2) a parsed record is appended by
a visit step exactly when its name is non-empty; (3) the result list is
append-only across the whole loop — records are never mutated or removed
after being appended, only a suffix of retained records is added. -/
theorem C1_nonempty_name_retention (env : FeedEnv) :
    (∀ fuel s c, outerLoop env fuel initLoopState = some (s, c) →
      ∀ d ∈ s.results, truthyStr d.name = true) ∧
    (∀ s i d, env.stop s.stopChecks = false → i ∉ s.processedIndices →
      env.visit s.visitCalls = VisitOutcome.parsed d →
      ((innerStep env s i).1.results = s.results ++ [d] ↔ truthyStr d.name = true)) ∧
    (∀ fuel s0 s c, outerLoop env fuel s0 = some (s, c) →
      ∃ t, s.results = s0.results ++ t ∧ ∀ d ∈ t, truthyStr d.name = true) := by
  refine ⟨fun fuel s c h => ?_, fun s i d hstop hproc hv => ?_, fun fuel s0 s c h => ?_⟩
  · rcases outerLoop_results env fuel initLoopState s c h with ⟨t, ht, ha⟩
    intro d hd
    rw [ht] at hd
    rcases List.mem_append.mp hd with h0 | h0
    · simp [initLoopState] at h0
    · exact ha d h0
  · unfold innerStep
    rw [hstop]
    simp only [Bool.false_eq_true, if_false]
    rw [if_neg (by simpa using hproc), hv]
    by_cases hn : truthyStr d.name = true
    · simp only [if_pos hn]
      rw [maybeScroll_results]
      simp [hn]
    · simp only [hn, Bool.false_eq_true, if_false]
      rw [maybeScroll_results]
      constructor
      · intro hcontra
        have := congrArg List.length hcontra
        simp at this
      · intro hcontra
        cases hcontra
  · exact outerLoop_results env fuel s0 s c h

/-- Listing record with the non-empty name used by concrete runs. -/
def dGoodC1 : Details := { initDetails with name := some "Acme" }

/-- Feed used by the C1 witness: zero listings are reported, while the visit
stream would offer `dGoodC1`. -/
def cEnvC1w : FeedEnv :=
  ⟨fun _ => 0, fun _ => .parsed dGoodC1, fun _ => .noGrow, fun _ => false⟩

/-- C1 witness: at the initial state, the visit step of the concrete feed
appends the parsed record because its name is non-empty. -/
theorem C1_witness :
    (innerStep cEnvC1w initLoopState 0).1.results = initLoopState.results ++ [dGoodC1] :=
  ((C1_nonempty_name_retention cEnvC1w).2.1 initLoopState 0 dGoodC1 rfl
    (by simp [initLoopState]) rfl).mpr (by decide)

/-! ## Claim C2 -/

/-- C2: under any feed whose scroll attempts never report growth (the
realizable never-growing behaviour, since the concrete scroll helper catches
its own exceptions and returns `False`), the pagination loop terminates
within 5 passes; the cause is then one of the enumerated non-fatal exits,
and any `noGrowth` exit of any run carries a no-growth counter strictly
above 3, that is at least 4 consecutive no-growth scroll attempts. -/
theorem C2_pagination_terminates (env : FeedEnv) (h : allNoGrow env) :
    (outerLoop env 5 initLoopState).isSome = true ∧
    (∀ s c, outerLoop env 5 initLoopState = some (s, c) →
      (c = ExitCause.noGrowth ∨ c = ExitCause.zeroItems ∨ c = ExitCause.stopRequested)) ∧
    (∀ fuel s0 s, outerLoop env fuel s0 = some (s, ExitCause.noGrowth) →
      s.noNewResultsCount > 3) := by
  have hterm := outerLoop_noGrow_term env h 5 initLoopState (by simp [initLoopState]) (by omega)
  exact ⟨hterm.1, hterm.2, fun fuel s0 s hng => outerLoop_noGrowth_threshold env fuel s0 s hng⟩

/-- Feed used by the C2 witness: one listing that always fails to click, and
scrolling never grows the feed. -/
def cEnvC2w : FeedEnv :=
  ⟨fun _ => 1, fun _ => .clickFail, fun _ => .noGrow, fun _ => false⟩

/-- C2 witness: the concrete never-growing feed terminates within 5 passes. -/
theorem C2_witness : (outerLoop cEnvC2w 5 initLoopState).isSome = true :=
  (C2_pagination_terminates cEnvC2w (fun _ => rfl)).1

/-! ## Claim C8 -/

/-- A visit outcome the controller counts as a non-fatal per-listing failure:
a failed click, a parsed record with falsy name, or a raise whose message is
not classified fatal. -/
def nonFatalFailure : VisitOutcome → Bool
  | .clickFail => true
  | .parsed d => !truthyStr d.name
  | .raised msg => !fatalMsg msg

/-- Feed used to probe the failure streak: four listings, every visit fails,
scrolling never grows. -/
def cEnvC8 : FeedEnv :=
  ⟨fun _ => 4, fun _ => .clickFail, fun _ => .noGrow, fun _ => false⟩

/-- C8 counterexample: after exactly 3 consecutive failed listings the
controller has made no scroll attempt (the counter sits at 3, and
`consecutive_failures > 3` has not fired); only the 4th consecutive failure
triggers the scroll.  This refutes the claimed threshold of exactly 3. -/
theorem C8_counterexample :
    cEnvC8.visit 0 = VisitOutcome.clickFail ∧
    cEnvC8.visit 1 = VisitOutcome.clickFail ∧
    cEnvC8.visit 2 = VisitOutcome.clickFail ∧
    (innerLoop cEnvC8 initLoopState [0, 1, 2]).consecutiveFailures = 3 ∧
    (innerLoop cEnvC8 initLoopState [0, 1, 2]).scrollCalls = 0 ∧
    (innerLoop cEnvC8 initLoopState [0, 1, 2, 3]).scrollCalls = 1 ∧
    (innerLoop cEnvC8 initLoopState [0, 1, 2, 3]).consecutiveFailures = 0 :=
  ⟨rfl, rfl, rfl, by decide, by decide, by decide, by decide⟩

/-- C8 as amended: a successful extraction resets the failure counter and
triggers no scroll; a non-fatal failure that brings the streak to at most 3
only increments the counter, with no scroll attempt; a non-fatal failure
that brings the streak above 3 (that is, the 4th consecutive failure)
triggers exactly one scroll attempt, and the counter is reset whenever that
scroll attempt returns (grew or no growth) rather than raising. -/
theorem C8_amended_failure_streak (env : FeedEnv) :
    (∀ s i d, env.stop s.stopChecks = false → i ∉ s.processedIndices →
      env.visit s.visitCalls = VisitOutcome.parsed d → truthyStr d.name = true →
      (innerStep env s i).1.consecutiveFailures = 0 ∧
      (innerStep env s i).1.scrollCalls = s.scrollCalls) ∧
    (∀ s i oc, env.stop s.stopChecks = false → i ∉ s.processedIndices →
      env.visit s.visitCalls = oc → nonFatalFailure oc = true →
      s.consecutiveFailures + 1 ≤ 3 →
      (innerStep env s i).1.consecutiveFailures = s.consecutiveFailures + 1 ∧
      (innerStep env s i).1.scrollCalls = s.scrollCalls) ∧
    (∀ s i oc, env.stop s.stopChecks = false → i ∉ s.processedIndices →
      env.visit s.visitCalls = oc → nonFatalFailure oc = true →
      3 < s.consecutiveFailures + 1 →
      (innerStep env s i).1.scrollCalls = s.scrollCalls + 1 ∧
      ((env.scroll s.scrollCalls = ScrollOutcome.grew ∨
        env.scroll s.scrollCalls = ScrollOutcome.noGrow) →
        (innerStep env s i).1.consecutiveFailures = 0)) := by
  refine ⟨fun s i d hstop hproc hv hn => ?_, fun s i oc hstop hproc hv hoc hle => ?_,
    fun s i oc hstop hproc hv hoc hgt => ?_⟩
  · unfold innerStep
    rw [hstop]
    simp only [Bool.false_eq_true, if_false]
    rw [if_neg (by simpa using hproc), hv]
    simp only [if_pos hn]
    unfold maybeScroll
    simp only []
    rw [if_neg (by omega : ¬ (0 : Nat) > 3)]
    exact ⟨rfl, rfl⟩
  · unfold innerStep
    rw [hstop]
    simp only [Bool.false_eq_true, if_false]
    rw [if_neg (by simpa using hproc), hv]
    cases oc with
    | parsed d =>
      have hn : truthyStr d.name = false := by
        simpa [nonFatalFailure] using hoc
      simp only [hn, Bool.false_eq_true, if_false]
      unfold maybeScroll
      rw [if_neg (by simpa using hle : ¬ s.consecutiveFailures + 1 > 3)]
      exact ⟨rfl, rfl⟩
    | clickFail =>
      unfold maybeScroll
      rw [if_neg (by simpa using hle : ¬ s.consecutiveFailures + 1 > 3)]
      exact ⟨rfl, rfl⟩
    | raised msg =>
      have hf : fatalMsg msg = false := by
        simpa [nonFatalFailure] using hoc
      simp only [hf, Bool.false_eq_true, if_false]
      unfold maybeScroll
      rw [if_neg (by simpa using hle : ¬ s.consecutiveFailures + 1 > 3)]
      exact ⟨rfl, rfl⟩
  · unfold innerStep
    rw [hstop]
    simp only [Bool.false_eq_true, if_false]
    rw [if_neg (by simpa using hproc), hv]
    have key : ∀ s2 : LoopState, s2.consecutiveFailures = s.consecutiveFailures + 1 →
        s2.scrollCalls = s.scrollCalls →
        (maybeScroll env s2).1.scrollCalls = s.scrollCalls + 1 ∧
        ((env.scroll s.scrollCalls = ScrollOutcome.grew ∨
          env.scroll s.scrollCalls = ScrollOutcome.noGrow) →
          (maybeScroll env s2).1.consecutiveFailures = 0) := by
      intro s2 hcf hsc
      unfold maybeScroll
      rw [if_pos (by omega : s2.consecutiveFailures > 3), hsc]
      cases hscr : env.scroll s.scrollCalls with
      | grew => exact ⟨rfl, fun _ => rfl⟩
      | noGrow => exact ⟨rfl, fun _ => rfl⟩
      | raised msg =>
        refine ⟨?_, fun hcontra => ?_⟩
        · by_cases hf2 : fatalMsg msg = true
          · simp [hf2]
          · simp [hf2]
        · rcases hcontra with hcontra | hcontra <;> cases hcontra
    cases oc with
    | parsed d =>
      have hn : truthyStr d.name = false := by
        simpa [nonFatalFailure] using hoc
      simp only [hn, Bool.false_eq_true, if_false]
      exact key _ rfl rfl
    | clickFail =>
      exact key _ rfl rfl
    | raised msg =>
      have hf : fatalMsg msg = false := by
        simpa [nonFatalFailure] using hoc
      simp only [hf, Bool.false_eq_true, if_false]
      exact key _ rfl rfl

/-- State with a streak of 3 failures already recorded, for the C8 witness. -/
def sC8w : LoopState := { initLoopState with consecutiveFailures := 3 }

/-- C8 witness: in that state a 4th consecutive failure triggers exactly one
scroll attempt, and since the scroll reports no growth the counter resets. -/
theorem C8_witness :
    (innerStep cEnvC8 sC8w 0).1.scrollCalls = sC8w.scrollCalls + 1 ∧
    (innerStep cEnvC8 sC8w 0).1.consecutiveFailures = 0 := by
  have h := (C8_amended_failure_streak cEnvC8).2.2 sC8w 0 VisitOutcome.clickFail rfl
    (by simp [sC8w, initLoopState]) rfl rfl (by decide)
  exact ⟨h.1, h.2 (Or.inr rfl)⟩

/-! ## Claim C3 -/

/-- Listing record returned by the later visits of the C3 run. -/
def dGoodC3 : Details := { initDetails with name := some "Acme" }

/-- The C3 run: a feed reporting 2 listings throughout; the first visit
attempt raises with the session-lost message, every later visit parses a
named record; scrolls never grow; no stop request. -/
def cEnvC3 : FeedEnv :=
  ⟨fun _ => 2,
   fun n => if n == 0 then .raised "session deleted" else .parsed dGoodC3,
   fun _ => .noGrow,
   fun _ => false⟩

/-- C3, run against the code as written: the first visit raises a message the
fatal classifier accepts, yet the loop goes on to visit both listings in the
next pass (3 visit calls in total) and accumulates 2 records before ending at
the no-growth threshold — the fatal per-listing handler only breaks the inner
scan, it does not abort pagination.  The run still ends without propagating
and the accumulated list is returned with the cause. -/
theorem C3_fatal_error_only_breaks_scan :
    fatalMsg "session deleted" = true ∧
    cEnvC3.visit 0 = VisitOutcome.raised "session deleted" ∧
    (outerLoop cEnvC3 6 initLoopState).map
        (fun p => (p.1.results.length, p.1.visitCalls, p.2))
      = some (2, 3, ExitCause.noGrowth) ∧
    extract_all_results cEnvC3 6
      = some ([dGoodC3, dGoodC3], ExitCause.noGrowth) :=
  ⟨by decide, rfl, by decide, by decide⟩

/-! ## Detail-parser lemmas -/

theorem nameLoop_keeps (nt : Nat → Except Unit String) :
    ∀ (ks : List Nat) (d : Details),
      (nameLoop nt ks d).phone = d.phone ∧ (nameLoop nt ks d).email = d.email ∧
      (nameLoop nt ks d).website = d.website ∧ (nameLoop nt ks d).address = d.address ∧
      (nameLoop nt ks d).rating = d.rating ∧
      (nameLoop nt ks d).reviews_count = d.reviews_count ∧
      (nameLoop nt ks d).category = d.category ∧ (nameLoop nt ks d).hours = d.hours ∧
      (nameLoop nt ks d).price_level = d.price_level := by
  intro ks
  induction ks with
  | nil => intro d; exact ⟨rfl, rfl, rfl, rfl, rfl, rfl, rfl, rfl, rfl⟩
  | cons k ks ih =>
    intro d
    unfold nameLoop
    cases nt k with
    | error e => exact ih d
    | ok t =>
      by_cases hT : t ≠ ""
      · simp [hT]
      · simp only [if_neg hT]
        exact ih d

theorem categoryBlock_keeps (ct : Except Unit String) (d : Details) :
    (categoryBlock ct d).name = d.name ∧ (categoryBlock ct d).phone = d.phone ∧
    (categoryBlock ct d).email = d.email ∧ (categoryBlock ct d).website = d.website ∧
    (categoryBlock ct d).address = d.address ∧ (categoryBlock ct d).rating = d.rating ∧
    (categoryBlock ct d).reviews_count = d.reviews_count ∧
    (categoryBlock ct d).hours = d.hours ∧
    (categoryBlock ct d).price_level = d.price_level := by
  unfold categoryBlock
  cases ct with
  | error e => exact ⟨rfl, rfl, rfl, rfl, rfl, rfl, rfl, rfl, rfl⟩
  | ok t =>
    by_cases hT : t ≠ "" <;> simp [hT]

theorem buttonStep_keeps (tOps : TextOps) (b : Except Unit ButtonData) (d : Details) :
    (buttonStep tOps b d).name = d.name ∧ (buttonStep tOps b d).email = d.email ∧
    (buttonStep tOps b d).rating = d.rating ∧
    (buttonStep tOps b d).reviews_count = d.reviews_count ∧
    (buttonStep tOps b d).category = d.category ∧ (buttonStep tOps b d).hours = d.hours ∧
    (buttonStep tOps b d).price_level = d.price_level := by
  cases b with
  | error e => simp [buttonStep]
  | ok bd =>
    simp only [buttonStep]
    split_ifs <;>
      first
        | simp
        | (cases tOps.phoneFromText bd.text <;> simp)

theorem buttonsFoldl_keeps (tOps : TextOps) :
    ∀ (btns : List (Except Unit ButtonData)) (d : Details),
      (btns.foldl (fun acc b => buttonStep tOps b acc) d).name = d.name ∧
      (btns.foldl (fun acc b => buttonStep tOps b acc) d).email = d.email ∧
      (btns.foldl (fun acc b => buttonStep tOps b acc) d).rating = d.rating ∧
      (btns.foldl (fun acc b => buttonStep tOps b acc) d).reviews_count = d.reviews_count ∧
      (btns.foldl (fun acc b => buttonStep tOps b acc) d).category = d.category ∧
      (btns.foldl (fun acc b => buttonStep tOps b acc) d).hours = d.hours ∧
      (btns.foldl (fun acc b => buttonStep tOps b acc) d).price_level = d.price_level := by
  intro btns
  induction btns with
  | nil => intro d; exact ⟨rfl, rfl, rfl, rfl, rfl, rfl, rfl⟩
  | cons b bs ih =>
    intro d
    rcases buttonStep_keeps tOps b d with ⟨k1, k2, k3, k4, k5, k6, k7⟩
    rcases ih (buttonStep tOps b d) with ⟨j1, j2, j3, j4, j5, j6, j7⟩
    simp only [List.foldl_cons]
    exact ⟨j1.trans k1, j2.trans k2, j3.trans k3, j4.trans k4, j5.trans k5,
      j6.trans k6, j7.trans k7⟩

theorem telBlock_keeps (th : Except Unit (Option String)) (d : Details) :
    (telBlock th d).name = d.name ∧ (telBlock th d).email = d.email ∧
    (telBlock th d).website = d.website ∧ (telBlock th d).address = d.address ∧
    (telBlock th d).rating = d.rating ∧ (telBlock th d).reviews_count = d.reviews_count ∧
    (telBlock th d).category = d.category ∧ (telBlock th d).hours = d.hours ∧
    (telBlock th d).price_level = d.price_level := by
  unfold telBlock
  by_cases hp : truthyStr d.phone = true
  · simp [hp]
  · simp only [hp, Bool.false_eq_true, if_false]
    cases th with
    | error e => exact ⟨rfl, rfl, rfl, rfl, rfl, rfl, rfl, rfl, rfl⟩
    | ok o =>
      cases o with
      | none => exact ⟨rfl, rfl, rfl, rfl, rfl, rfl, rfl, rfl, rfl⟩
      | some h2 => exact ⟨rfl, rfl, rfl, rfl, rfl, rfl, rfl, rfl, rfl⟩

theorem ratingUpdate_keeps (rtext : String) (d : Details) :
    (ratingUpdate rtext d).name = d.name ∧ (ratingUpdate rtext d).phone = d.phone ∧
    (ratingUpdate rtext d).email = d.email ∧ (ratingUpdate rtext d).website = d.website ∧
    (ratingUpdate rtext d).address = d.address ∧
    (ratingUpdate rtext d).reviews_count = d.reviews_count ∧
    (ratingUpdate rtext d).category = d.category ∧ (ratingUpdate rtext d).hours = d.hours ∧
    (ratingUpdate rtext d).price_level = d.price_level := by
  unfold ratingUpdate
  by_cases hT : rtext ≠ ""
  · simp only [if_pos hT]
    cases firstDecimalRun rtext <;> simp
  · simp [if_neg hT]

theorem reviewsUpdate_keeps (rvt : Except Unit String) (d : Details) :
    (reviewsUpdate rvt d).name = d.name ∧ (reviewsUpdate rvt d).phone = d.phone ∧
    (reviewsUpdate rvt d).email = d.email ∧ (reviewsUpdate rvt d).website = d.website ∧
    (reviewsUpdate rvt d).address = d.address ∧ (reviewsUpdate rvt d).rating = d.rating ∧
    (reviewsUpdate rvt d).category = d.category ∧ (reviewsUpdate rvt d).hours = d.hours ∧
    (reviewsUpdate rvt d).price_level = d.price_level := by
  unfold reviewsUpdate
  cases rvt with
  | error e => exact ⟨rfl, rfl, rfl, rfl, rfl, rfl, rfl, rfl, rfl⟩
  | ok rvtext =>
    by_cases hT : rvtext ≠ ""
    · simp only [if_pos hT]
      cases firstNumRun rvtext <;> simp
    · simp [if_neg hT]

theorem hoursBlock_keeps (ht : Except Unit String) (d : Details) :
    (hoursBlock ht d).name = d.name ∧ (hoursBlock ht d).phone = d.phone ∧
    (hoursBlock ht d).email = d.email ∧ (hoursBlock ht d).website = d.website ∧
    (hoursBlock ht d).address = d.address ∧ (hoursBlock ht d).rating = d.rating ∧
    (hoursBlock ht d).reviews_count = d.reviews_count ∧
    (hoursBlock ht d).category = d.category ∧
    (hoursBlock ht d).price_level = d.price_level := by
  unfold hoursBlock
  cases ht with
  | error e => exact ⟨rfl, rfl, rfl, rfl, rfl, rfl, rfl, rfl, rfl⟩
  | ok t => by_cases hT : t ≠ "" <;> simp [hT]

theorem priceBlock_keeps (pt : Except Unit String) (d : Details) :
    (priceBlock pt d).name = d.name ∧ (priceBlock pt d).phone = d.phone ∧
    (priceBlock pt d).email = d.email ∧ (priceBlock pt d).website = d.website ∧
    (priceBlock pt d).address = d.address ∧ (priceBlock pt d).rating = d.rating ∧
    (priceBlock pt d).reviews_count = d.reviews_count ∧
    (priceBlock pt d).category = d.category ∧ (priceBlock pt d).hours = d.hours := by
  unfold priceBlock
  cases pt with
  | error e => exact ⟨rfl, rfl, rfl, rfl, rfl, rfl, rfl, rfl, rfl⟩
  | ok t =>
    by_cases hT : ¬t = "" ∧ t.contains '$' = true <;> simp [hT]

theorem emailBlock_keeps (tOps : TextOps) (pt : Except Unit String) (d : Details) :
    (emailBlock tOps pt d).name = d.name ∧ (emailBlock tOps pt d).phone = d.phone ∧
    (emailBlock tOps pt d).website = d.website ∧ (emailBlock tOps pt d).address = d.address ∧
    (emailBlock tOps pt d).rating = d.rating ∧
    (emailBlock tOps pt d).reviews_count = d.reviews_count ∧
    (emailBlock tOps pt d).category = d.category ∧ (emailBlock tOps pt d).hours = d.hours ∧
    (emailBlock tOps pt d).price_level = d.price_level := by
  unfold emailBlock
  cases pt with
  | error e => exact ⟨rfl, rfl, rfl, rfl, rfl, rfl, rfl, rfl, rfl⟩
  | ok ptext =>
    cases hm : tOps.firstEmail ptext <;> simp [hm]

/-- Agreement on every field except `rating` and `reviews_count`. -/
def agreeExceptRating (a b : Details) : Prop :=
  a.name = b.name ∧ a.phone = b.phone ∧ a.email = b.email ∧ a.website = b.website ∧
  a.address = b.address ∧ a.category = b.category ∧ a.hours = b.hours ∧
  a.price_level = b.price_level

/-- Agreement on every field except `hours`. -/
def agreeExceptHours (a b : Details) : Prop :=
  a.name = b.name ∧ a.phone = b.phone ∧ a.email = b.email ∧ a.website = b.website ∧
  a.address = b.address ∧ a.rating = b.rating ∧ a.reviews_count = b.reviews_count ∧
  a.category = b.category ∧ a.price_level = b.price_level

theorem agreeExceptRating_refl (a : Details) : agreeExceptRating a a :=
  ⟨rfl, rfl, rfl, rfl, rfl, rfl, rfl, rfl⟩

theorem agreeExceptRating_trans2 {a b c : Details}
    (h1 : agreeExceptRating a c) (h2 : agreeExceptRating b c) : agreeExceptRating a b := by
  obtain ⟨x1, x2, x3, x4, x5, x6, x7, x8⟩ := h1
  obtain ⟨y1, y2, y3, y4, y5, y6, y7, y8⟩ := h2
  exact ⟨x1.trans y1.symm, x2.trans y2.symm, x3.trans y3.symm, x4.trans y4.symm,
    x5.trans y5.symm, x6.trans y6.symm, x7.trans y7.symm, x8.trans y8.symm⟩

theorem agreeExceptHours_trans2 {a b c : Details}
    (h1 : agreeExceptHours a c) (h2 : agreeExceptHours b c) : agreeExceptHours a b := by
  obtain ⟨x1, x2, x3, x4, x5, x6, x7, x8, x9⟩ := h1
  obtain ⟨y1, y2, y3, y4, y5, y6, y7, y8, y9⟩ := h2
  exact ⟨x1.trans y1.symm, x2.trans y2.symm, x3.trans y3.symm, x4.trans y4.symm,
    x5.trans y5.symm, x6.trans y6.symm, x7.trans y7.symm, x8.trans y8.symm, x9.trans y9.symm⟩

/-- The shared rating-and-reviews block touches only its two own fields. -/
theorem rrB_keepsER (rt rvt : Except Unit String) (d : Details) :
    agreeExceptRating (ratingReviewsBlock rt rvt d) d := by
  unfold ratingReviewsBlock
  cases rt with
  | error e => exact agreeExceptRating_refl d
  | ok rtext =>
    obtain ⟨r1, r2, r3, r4, r5, _, r7, r8, r9⟩ := ratingUpdate_keeps rtext d
    obtain ⟨v1, v2, v3, v4, v5, _, v7, v8, v9⟩ := reviewsUpdate_keeps rvt (ratingUpdate rtext d)
    exact ⟨v1.trans r1, v2.trans r2, v3.trans r3, v4.trans r4, v5.trans r5,
      v7.trans r7, v8.trans r8, v9.trans r9⟩

theorem hoursBlock_agreeER (ht : Except Unit String) (d d' : Details)
    (h : agreeExceptRating d d') :
    agreeExceptRating (hoursBlock ht d) (hoursBlock ht d') := by
  obtain ⟨h1, h2, h3, h4, h5, h6, h7, h8⟩ := h
  unfold hoursBlock
  cases ht with
  | error e => exact ⟨h1, h2, h3, h4, h5, h6, h7, h8⟩
  | ok t =>
    by_cases hT : t ≠ ""
    · simp only [if_pos hT]
      exact ⟨h1, h2, h3, h4, h5, h6, rfl, h8⟩
    · simp only [if_neg hT]
      exact ⟨h1, h2, h3, h4, h5, h6, h7, h8⟩

theorem priceBlock_agreeER (pt : Except Unit String) (d d' : Details)
    (h : agreeExceptRating d d') :
    agreeExceptRating (priceBlock pt d) (priceBlock pt d') := by
  obtain ⟨h1, h2, h3, h4, h5, h6, h7, h8⟩ := h
  unfold priceBlock
  cases pt with
  | error e => exact ⟨h1, h2, h3, h4, h5, h6, h7, h8⟩
  | ok t =>
    by_cases hT : (t ≠ "" && t.contains '$') = true
    · simp only [if_pos hT]
      exact ⟨h1, h2, h3, h4, h5, h6, h7, rfl⟩
    · simp only [if_neg hT]
      exact ⟨h1, h2, h3, h4, h5, h6, h7, h8⟩

theorem emailBlock_agreeER (tOps : TextOps) (pt : Except Unit String) (d d' : Details)
    (h : agreeExceptRating d d') :
    agreeExceptRating (emailBlock tOps pt d) (emailBlock tOps pt d') := by
  obtain ⟨h1, h2, h3, h4, h5, h6, h7, h8⟩ := h
  unfold emailBlock
  cases pt with
  | error e => exact ⟨h1, h2, h3, h4, h5, h6, h7, h8⟩
  | ok ptext =>
    cases hm : tOps.firstEmail ptext with
    | some m =>
      simp only [hm]
      exact ⟨h1, h2, rfl, h4, h5, h6, h7, h8⟩
    | none =>
      simp only [hm]
      exact ⟨h1, h2, h3, h4, h5, h6, h7, h8⟩

/-- The hours block touches only its own field. -/
theorem hoursBlock_keepsEH (ht : Except Unit String) (d : Details) :
    agreeExceptHours (hoursBlock ht d) d := by
  obtain ⟨k1, k2, k3, k4, k5, k6, k7, k8, k9⟩ := hoursBlock_keeps ht d
  exact ⟨k1, k2, k3, k4, k5, k6, k7, k8, k9⟩

theorem priceBlock_agreeEH (pt : Except Unit String) (d d' : Details)
    (h : agreeExceptHours d d') :
    agreeExceptHours (priceBlock pt d) (priceBlock pt d') := by
  obtain ⟨h1, h2, h3, h4, h5, h6, h7, h8, h9⟩ := h
  unfold priceBlock
  cases pt with
  | error e => exact ⟨h1, h2, h3, h4, h5, h6, h7, h8, h9⟩
  | ok t =>
    by_cases hT : (t ≠ "" && t.contains '$') = true
    · simp only [if_pos hT]
      exact ⟨h1, h2, h3, h4, h5, h6, h7, h8, rfl⟩
    · simp only [if_neg hT]
      exact ⟨h1, h2, h3, h4, h5, h6, h7, h8, h9⟩

theorem emailBlock_agreeEH (tOps : TextOps) (pt : Except Unit String) (d d' : Details)
    (h : agreeExceptHours d d') :
    agreeExceptHours (emailBlock tOps pt d) (emailBlock tOps pt d') := by
  obtain ⟨h1, h2, h3, h4, h5, h6, h7, h8, h9⟩ := h
  unfold emailBlock
  cases pt with
  | error e => exact ⟨h1, h2, h3, h4, h5, h6, h7, h8, h9⟩
  | ok ptext =>
    cases hm : tOps.firstEmail ptext with
    | some m =>
      simp only [hm]
      exact ⟨h1, h2, rfl, h4, h5, h6, h7, h8, h9⟩
    | none =>
      simp only [hm]
      exact ⟨h1, h2, h3, h4, h5, h6, h7, h8, h9⟩

/-- The tail of the parse pipeline, abstracted over the outcome of the
unprotected info-buttons query. -/
def parseTail (tOps : TextOps) (e : PanelEnv) :
    Except Unit (List (Except Unit ButtonData)) → Details
  | .error _ => categoryBlock e.categoryText (nameBlock e.nameText initDetails)
  | .ok btns =>
    emailBlock tOps e.panelText
      (priceBlock e.priceText
        (hoursBlock e.hoursText
          (ratingReviewsBlock e.ratingText e.reviewsText
            (telBlock e.telHref
              (btns.foldl (fun acc b => buttonStep tOps b acc)
                (categoryBlock e.categoryText (nameBlock e.nameText initDetails)))))))

/-- The parse pipeline written out block by block. -/
theorem parse_eq (e : PanelEnv) (tOps : TextOps) :
    extract_listing_details_from_panel e tOps = parseTail tOps e e.buttonsFind := by
  unfold extract_listing_details_from_panel parseTail
  cases e.buttonsFind with
  | error u => rfl
  | ok btns => rfl

theorem agreeExceptHours_refl (a : Details) : agreeExceptHours a a :=
  ⟨rfl, rfl, rfl, rfl, rfl, rfl, rfl, rfl, rfl⟩

/-! ## Claim C7 -/

/-- C7 as amended: (1) the rating query oracle influences at most the
`rating` and `reviews_count` fields — two parses over environments agreeing
on every other oracle agree on every other field; (2) likewise the hours
query oracle influences at most `hours`; (3) the shared-block exception: when
the rating query raises, the `reviews_count` extractor is never reached and
the field stays unset; (4) the unprotected-buttons exception: when the
info-buttons query raises, the parse still returns a record, but every field
extracted after that point (phone, website, address, rating, reviews_count,
hours, price_level, email) stays unset — only name and category, extracted
before it, survive. -/
theorem C7_parser_isolation :
    (∀ (e e' : PanelEnv) (tOps : TextOps),
      e'.nameText = e.nameText → e'.categoryText = e.categoryText →
      e'.buttonsFind = e.buttonsFind → e'.telHref = e.telHref →
      e'.reviewsText = e.reviewsText → e'.hoursText = e.hoursText →
      e'.priceText = e.priceText → e'.panelText = e.panelText →
      agreeExceptRating (extract_listing_details_from_panel e' tOps)
        (extract_listing_details_from_panel e tOps)) ∧
    (∀ (e e' : PanelEnv) (tOps : TextOps),
      e'.nameText = e.nameText → e'.categoryText = e.categoryText →
      e'.buttonsFind = e.buttonsFind → e'.telHref = e.telHref →
      e'.ratingText = e.ratingText → e'.reviewsText = e.reviewsText →
      e'.priceText = e.priceText → e'.panelText = e.panelText →
      agreeExceptHours (extract_listing_details_from_panel e' tOps)
        (extract_listing_details_from_panel e tOps)) ∧
    (∀ (e : PanelEnv) (tOps : TextOps), e.ratingText = .error () →
      (extract_listing_details_from_panel e tOps).reviews_count = none) ∧
    (∀ (e : PanelEnv) (tOps : TextOps), e.buttonsFind = .error () →
      (extract_listing_details_from_panel e tOps).phone = none ∧
      (extract_listing_details_from_panel e tOps).website = none ∧
      (extract_listing_details_from_panel e tOps).address = none ∧
      (extract_listing_details_from_panel e tOps).rating = none ∧
      (extract_listing_details_from_panel e tOps).reviews_count = none ∧
      (extract_listing_details_from_panel e tOps).hours = none ∧
      (extract_listing_details_from_panel e tOps).price_level = none ∧
      (extract_listing_details_from_panel e tOps).email = none) := by
  refine ⟨fun e e' tOps h1 h2 h3 h4 h5 h6 h7 h8 => ?_,
    fun e e' tOps h1 h2 h3 h4 h5 h6 h7 h8 => ?_,
    fun e tOps hrt => ?_, fun e tOps hbf => ?_⟩
  · rw [parse_eq, parse_eq, h3]
    cases hb : e.buttonsFind with
    | error u =>
      simp only [parseTail, h1, h2]
      exact agreeExceptRating_refl _
    | ok btns =>
      simp only [parseTail, h1, h2, h4, h5, h6, h7, h8]
      exact emailBlock_agreeER _ _ _ _
        (priceBlock_agreeER _ _ _
          (hoursBlock_agreeER _ _ _
            (agreeExceptRating_trans2 (rrB_keepsER _ _ _) (rrB_keepsER _ _ _))))
  · rw [parse_eq, parse_eq, h3]
    cases hb : e.buttonsFind with
    | error u =>
      simp only [parseTail, h1, h2]
      exact agreeExceptHours_refl _
    | ok btns =>
      simp only [parseTail, h1, h2, h4, h5, h6, h7, h8]
      exact emailBlock_agreeEH _ _ _ _
        (priceBlock_agreeEH _ _ _
          (agreeExceptHours_trans2 (hoursBlock_keepsEH _ _) (hoursBlock_keepsEH _ _)))
  · rw [parse_eq]
    cases hb : e.buttonsFind with
    | error u =>
      simp only [parseTail]
      have hC := (categoryBlock_keeps e.categoryText (nameBlock e.nameText initDetails)).2.2.2.2.2.2.1
      have hN := (nameLoop_keeps e.nameText [0, 1, 2, 3] initDetails).2.2.2.2.2.1
      exact hC.trans hN
    | ok btns =>
      simp only [parseTail, hrt, ratingReviewsBlock, nameBlock]
      set D2 := categoryBlock e.categoryText (nameLoop e.nameText [0, 1, 2, 3] initDetails)
        with hD2
      set D3 := List.foldl (fun acc b => buttonStep tOps b acc) D2 btns with hD3
      set D4 := telBlock e.telHref D3 with hD4
      set D5 := hoursBlock e.hoursText D4 with hD5
      set D6 := priceBlock e.priceText D5 with hD6
      rw [(emailBlock_keeps tOps e.panelText D6).2.2.2.2.2.1, hD6,
        (priceBlock_keeps e.priceText D5).2.2.2.2.2.2.1, hD5,
        (hoursBlock_keeps e.hoursText D4).2.2.2.2.2.2.1, hD4,
        (telBlock_keeps e.telHref D3).2.2.2.2.2.1, hD3]
      rw [show (List.foldl (fun acc b => buttonStep tOps b acc) D2 btns).reviews_count
            = D2.reviews_count from (buttonsFoldl_keeps tOps btns D2).2.2.2.1, hD2,
        (categoryBlock_keeps e.categoryText
          (nameLoop e.nameText [0, 1, 2, 3] initDetails)).2.2.2.2.2.2.1,
        (nameLoop_keeps e.nameText [0, 1, 2, 3] initDetails).2.2.2.2.2.1]
      rfl
  · rw [parse_eq, hbf]
    simp only [parseTail]

    rcases categoryBlock_keeps e.categoryText (nameBlock e.nameText initDetails)
      with ⟨-, c2, c3, c4, c5, c6, c7, c8, c9⟩
    rcases nameLoop_keeps e.nameText [0, 1, 2, 3] initDetails
      with ⟨n1, n2, n3, n4, n5, n6, n7, n8, n9⟩
    exact ⟨c2.trans n1, c4.trans n3, c5.trans n4, c6.trans n5, c7.trans n6,
      c8.trans n8, c9.trans n9, c3.trans n2⟩

/-- Concrete detail-panel environment in which the rating query raises while
the review query would answer; the buttons query returns an empty list, the
panel-text query raises, so the abstract regex helpers are never consulted. -/
def ePanelA : PanelEnv :=
  ⟨fun _ => .ok "Cafe", .error (), .ok [], .ok none, .error (), .ok "1,234 reviews",
   .error (), .error (), .error ()⟩

/-- Same environment with the rating query answering an empty label instead
of raising. -/
def ePanelB : PanelEnv := { ePanelA with ratingText := .ok "" }

/-- C7 counterexample: the two environments answer the review query
identically, yet with the rating query raising the parse leaves
`reviews_count` unset, while without that exception it extracts `1234` —
an exception in the rating extractor does prevent the reviews_count
extractor, refuting full per-field isolation. -/
theorem C7_counterexample :
    ePanelA.reviewsText = ePanelB.reviewsText ∧
    (extract_listing_details_from_panel ePanelA nullTextOps).reviews_count = none ∧
    (extract_listing_details_from_panel ePanelB nullTextOps).reviews_count = some "1234" ∧
    (extract_listing_details_from_panel ePanelA nullTextOps).name = some "Cafe" :=
  ⟨rfl, by decide, by decide, by decide⟩

/-- C7 witness: the shared-block conjunct applied to the concrete environment
whose rating query raises. -/
theorem C7_witness :
    (extract_listing_details_from_panel ePanelA nullTextOps).reviews_count = none :=
  C7_parser_isolation.2.2.1 ePanelA nullTextOps rfl
